/-
Verification development for the supply-chain-blockchain repository.

Shallow embedding of:
  * the SupplyChain contract (smart-contracts/contracts/SupplyChain.sol), and the
    legacy contract variant kept in the repository (registration with name/place);
  * the Express backend stores and controllers (server/src): product metadata
    store, user/identity store, auth controllers and the signing helpers;
  * the client-side hybrid reconciliation service (createHybridProduct,
    getHybridProduct).

Solidity `require` reverts and Express `ApiError` throws are embedded as typed
errors.  Each throw/revert site is tagged with the error kind the design
taxonomy assigns to it (validation / authorization / state / conflict /
signature / notFound / internal) together with the exact source message.
Mutable maps become total or optional functions; `msg.sender`,
`block.timestamp`, generated ids/nonces and the signature-recovery primitive
are passed as explicit parameters.
-/
import Mathlib

/-- Error kinds of the design taxonomy. -/
inductive ErrKind where
  | validation
  | authorization
  | state
  | conflict
  | signature
  | notFound
  | internal
deriving DecidableEq, Repr

/-- A typed error: taxonomy kind plus the exact message from the source. -/
structure Err where
  kind : ErrKind
  msg : String
deriving DecidableEq, Repr

/-- Point update of a total-function map (Solidity `mapping` write). -/
def updF {α : Type} [DecidableEq α] {β : Type} (m : α → β) (k : α) (v : β) : α → β :=
  fun x => if x = k then v else m x

/-- Point update of an optional-function map (JS `Map.set`). -/
def setF {α : Type} [DecidableEq α] {β : Type} (m : α → Option β) (k : α) (v : β) :
    α → Option β :=
  fun x => if x = k then some v else m x

/-- Point removal from an optional-function map (JS `Map.delete`). -/
def delF {α : Type} [DecidableEq α] {β : Type} (m : α → Option β) (k : α) :
    α → Option β :=
  fun x => if x = k then none else m x

/-- Discriminator for the embedded call results. -/
def isOkE {α : Type} : Except Err α → Bool
  | .ok _ => true
  | .error _ => false

/-- The taxonomy kind of a failed call result (`none` on success). -/
def errKindOf {α : Type} : Except Err α → Option ErrKind
  | .ok _ => none
  | .error e => some e.kind

namespace Chain

/-- The contract's STAGE enum, ordinals 0..6. -/
inductive STAGE where
  | Manufactured
  | Packed
  | ShippedToDistributor
  | ReceivedByDistributor
  | ShippedToRetailer
  | ReceivedByRetailer
  | Sold
deriving DecidableEq, Repr

/-- Ordinal of a stage (the enum value on chain). -/
def stageNat : STAGE → Nat
  | .Manufactured => 0
  | .Packed => 1
  | .ShippedToDistributor => 2
  | .ReceivedByDistributor => 3
  | .ShippedToRetailer => 4
  | .ReceivedByRetailer => 5
  | .Sold => 6

/-- The Medicine struct.  Addresses are modelled as `Nat`, 0 = address(0). -/
structure Medicine where
  id : Nat
  manufacturer : Nat
  distributor : Nat
  retailer : Nat
  stage : STAGE
  createdAt : Nat
  updatedAt : Nat
  MANid : Nat
  DISid : Nat
  RETid : Nat
deriving DecidableEq, Repr

/-- Default mapping value for `MedicineStock` (all-zero struct). -/
def emptyMedicine : Medicine :=
  ⟨0, 0, 0, 0, .Manufactured, 0, 0, 0, 0, 0⟩

/-- Participant struct of the main contract (addr, id, registeredAt, active). -/
structure Participant where
  addr : Nat
  id : Nat
  registeredAt : Nat
  active : Bool
deriving DecidableEq, Repr

def emptyParticipant : Participant := ⟨0, 0, 0, false⟩

/-- Storage of the main SupplyChain contract. -/
structure ChainState where
  owner : Nat
  medicineCtr : Nat
  manCtr : Nat
  disCtr : Nat
  retCtr : Nat
  stock : Nat → Medicine
  MAN : Nat → Participant
  DIS : Nat → Participant
  RET : Nat → Participant
  manAddressToId : Nat → Nat
  disAddressToId : Nat → Nat
  retAddressToId : Nat → Nat

/-- Freshly deployed contract (constructor sets Owner). -/
def deploy (sender : Nat) : ChainState :=
  { owner := sender
    medicineCtr := 0, manCtr := 0, disCtr := 0, retCtr := 0
    stock := fun _ => emptyMedicine
    MAN := fun _ => emptyParticipant
    DIS := fun _ => emptyParticipant
    RET := fun _ => emptyParticipant
    manAddressToId := fun _ => 0
    disAddressToId := fun _ => 0
    retAddressToId := fun _ => 0 }

/-- `addManufacturer` of the main contract (owner only, all three role checks). -/
def addManufacturer (s : ChainState) (sender addr now : Nat) : Except Err ChainState :=
  if sender ≠ s.owner then .error ⟨.authorization, "Only owner can call this function"⟩
  else if addr = 0 then .error ⟨.validation, "Invalid address"⟩
  else if s.manAddressToId addr ≠ 0 then .error ⟨.conflict, "Manufacturer already registered"⟩
  else if s.disAddressToId addr ≠ 0 then .error ⟨.conflict, "Address is already a Distributor"⟩
  else if s.retAddressToId addr ≠ 0 then .error ⟨.conflict, "Address is already a Retailer"⟩
  else .ok { s with manCtr := s.manCtr + 1
                    MAN := updF s.MAN (s.manCtr + 1) ⟨addr, s.manCtr + 1, now, true⟩
                    manAddressToId := updF s.manAddressToId addr (s.manCtr + 1) }

/-- `addDistributor` of the main contract. -/
def addDistributor (s : ChainState) (sender addr now : Nat) : Except Err ChainState :=
  if sender ≠ s.owner then .error ⟨.authorization, "Only owner can call this function"⟩
  else if addr = 0 then .error ⟨.validation, "Invalid address"⟩
  else if s.disAddressToId addr ≠ 0 then .error ⟨.conflict, "Distributor already registered"⟩
  else if s.manAddressToId addr ≠ 0 then .error ⟨.conflict, "Address is already a Manufacturer"⟩
  else if s.retAddressToId addr ≠ 0 then .error ⟨.conflict, "Address is already a Retailer"⟩
  else .ok { s with disCtr := s.disCtr + 1
                    DIS := updF s.DIS (s.disCtr + 1) ⟨addr, s.disCtr + 1, now, true⟩
                    disAddressToId := updF s.disAddressToId addr (s.disCtr + 1) }

/-- `addRetailer` of the main contract. -/
def addRetailer (s : ChainState) (sender addr now : Nat) : Except Err ChainState :=
  if sender ≠ s.owner then .error ⟨.authorization, "Only owner can call this function"⟩
  else if addr = 0 then .error ⟨.validation, "Invalid address"⟩
  else if s.retAddressToId addr ≠ 0 then .error ⟨.conflict, "Retailer already registered"⟩
  else if s.manAddressToId addr ≠ 0 then .error ⟨.conflict, "Address is already a Manufacturer"⟩
  else if s.disAddressToId addr ≠ 0 then .error ⟨.conflict, "Address is already a Distributor"⟩
  else .ok { s with retCtr := s.retCtr + 1
                    RET := updF s.RET (s.retCtr + 1) ⟨addr, s.retCtr + 1, now, true⟩
                    retAddressToId := updF s.retAddressToId addr (s.retCtr + 1) }

/-- `addMedicine` (manufacturer only): creates the item at stage Manufactured. -/
def addMedicine (s : ChainState) (sender now : Nat) : Except Err (ChainState × Nat) :=
  if s.manAddressToId sender = 0 then
    .error ⟨.authorization, "Only registered manufacturers can call this function"⟩
  else
    let newId := s.medicineCtr + 1
    .ok ({ s with medicineCtr := newId
                  stock := updF s.stock newId
                    { id := newId, manufacturer := sender, distributor := 0, retailer := 0
                      stage := .Manufactured, createdAt := now, updatedAt := now
                      MANid := s.manAddressToId sender, DISid := 0, RETid := 0 } },
         newId)

/-- `packMedicine` (main contract require order: role, id, custodian, stage). -/
def packMedicine (s : ChainState) (sender mid now : Nat) : Except Err ChainState :=
  if s.manAddressToId sender = 0 then
    .error ⟨.authorization, "Only registered manufacturers can call this function"⟩
  else if ¬(0 < mid ∧ mid ≤ s.medicineCtr) then .error ⟨.validation, "Invalid medicine ID"⟩
  else if (s.stock mid).manufacturer ≠ sender then .error ⟨.authorization, "Not your product"⟩
  else if (s.stock mid).stage ≠ .Manufactured then
    .error ⟨.state, "Medicine must be in Manufactured stage"⟩
  else .ok { s with stock := updF s.stock mid
                      { s.stock mid with stage := .Packed, updatedAt := now } }

/-- `shipToDistributor` (main contract: binds the distributor address). -/
def shipToDistributor (s : ChainState) (sender mid dist now : Nat) : Except Err ChainState :=
  if s.manAddressToId sender = 0 then
    .error ⟨.authorization, "Only registered manufacturers can call this function"⟩
  else if ¬(0 < mid ∧ mid ≤ s.medicineCtr) then .error ⟨.validation, "Invalid medicine ID"⟩
  else if (s.stock mid).manufacturer ≠ sender then .error ⟨.authorization, "Not your product"⟩
  else if (s.stock mid).stage ≠ .Packed then
    .error ⟨.state, "Medicine must be Packed first"⟩
  else if s.disAddressToId dist = 0 then .error ⟨.validation, "Invalid distributor address"⟩
  else .ok { s with stock := updF s.stock mid
                      { s.stock mid with
                          distributor := dist, DISid := s.disAddressToId dist
                          stage := .ShippedToDistributor, updatedAt := now } }

/-- `receiveByDistributor` (distributor only, must be the bound distributor). -/
def receiveByDistributor (s : ChainState) (sender mid now : Nat) : Except Err ChainState :=
  if s.disAddressToId sender = 0 then
    .error ⟨.authorization, "Only registered distributors can call this function"⟩
  else if ¬(0 < mid ∧ mid ≤ s.medicineCtr) then .error ⟨.validation, "Invalid medicine ID"⟩
  else if (s.stock mid).distributor ≠ sender then .error ⟨.authorization, "Not assigned to you"⟩
  else if (s.stock mid).stage ≠ .ShippedToDistributor then
    .error ⟨.state, "Medicine not shipped to you yet"⟩
  else .ok { s with stock := updF s.stock mid
                      { s.stock mid with stage := .ReceivedByDistributor, updatedAt := now } }

/-- `shipToRetailer` (distributor only: binds the retailer address). -/
def shipToRetailer (s : ChainState) (sender mid ret now : Nat) : Except Err ChainState :=
  if s.disAddressToId sender = 0 then
    .error ⟨.authorization, "Only registered distributors can call this function"⟩
  else if ¬(0 < mid ∧ mid ≤ s.medicineCtr) then .error ⟨.validation, "Invalid medicine ID"⟩
  else if (s.stock mid).distributor ≠ sender then .error ⟨.authorization, "Not your shipment"⟩
  else if (s.stock mid).stage ≠ .ReceivedByDistributor then
    .error ⟨.state, "Must receive first"⟩
  else if s.retAddressToId ret = 0 then .error ⟨.validation, "Invalid retailer address"⟩
  else .ok { s with stock := updF s.stock mid
                      { s.stock mid with
                          retailer := ret, RETid := s.retAddressToId ret
                          stage := .ShippedToRetailer, updatedAt := now } }

/-- `receiveByRetailer` (retailer only, must be the bound retailer). -/
def receiveByRetailer (s : ChainState) (sender mid now : Nat) : Except Err ChainState :=
  if s.retAddressToId sender = 0 then
    .error ⟨.authorization, "Only registered retailers can call this function"⟩
  else if ¬(0 < mid ∧ mid ≤ s.medicineCtr) then .error ⟨.validation, "Invalid medicine ID"⟩
  else if (s.stock mid).retailer ≠ sender then .error ⟨.authorization, "Not assigned to you"⟩
  else if (s.stock mid).stage ≠ .ShippedToRetailer then
    .error ⟨.state, "Medicine not shipped to you yet"⟩
  else .ok { s with stock := updF s.stock mid
                      { s.stock mid with stage := .ReceivedByRetailer, updatedAt := now } }

/-- `sellMedicine` (retailer only, must be the bound retailer). -/
def sellMedicine (s : ChainState) (sender mid now : Nat) : Except Err ChainState :=
  if s.retAddressToId sender = 0 then
    .error ⟨.authorization, "Only registered retailers can call this function"⟩
  else if ¬(0 < mid ∧ mid ≤ s.medicineCtr) then .error ⟨.validation, "Invalid medicine ID"⟩
  else if (s.stock mid).retailer ≠ sender then .error ⟨.authorization, "Not your product"⟩
  else if (s.stock mid).stage ≠ .ReceivedByRetailer then
    .error ⟨.state, "Must receive first"⟩
  else .ok { s with stock := updF s.stock mid
                      { s.stock mid with stage := .Sold, updatedAt := now } }

/-- `showStage` of the main contract: canonical display names. -/
def showStageName : STAGE → String
  | .Manufactured => "Manufactured"
  | .Packed => "Packed"
  | .ShippedToDistributor => "Shipped to Distributor"
  | .ReceivedByDistributor => "Received by Distributor"
  | .ShippedToRetailer => "Shipped to Retailer"
  | .ReceivedByRetailer => "Received by Retailer"
  | .Sold => "Sold"

/-- The six lifecycle operations of claim C1 (shipping ops carry their target). -/
inductive TransitionOp where
  | packOp
  | shipToDistributorOp (dist : Nat)
  | receiveByDistributorOp
  | shipToRetailerOp (ret : Nat)
  | receiveByRetailerOp
  | sellOp
deriving DecidableEq, Repr

/-- Dispatch a lifecycle operation on the main contract. -/
def applyOp (s : ChainState) (sender mid now : Nat) : TransitionOp → Except Err ChainState
  | .packOp => packMedicine s sender mid now
  | .shipToDistributorOp dist => shipToDistributor s sender mid dist now
  | .receiveByDistributorOp => receiveByDistributor s sender mid now
  | .shipToRetailerOp ret => shipToRetailer s sender mid ret now
  | .receiveByRetailerOp => receiveByRetailer s sender mid now
  | .sellOp => sellMedicine s sender mid now

/-- The exact precondition stage of each lifecycle operation. -/
def precondStage : TransitionOp → STAGE
  | .packOp => .Manufactured
  | .shipToDistributorOp _ => .Packed
  | .receiveByDistributorOp => .ShippedToDistributor
  | .shipToRetailerOp _ => .ReceivedByDistributor
  | .receiveByRetailerOp => .ShippedToRetailer
  | .sellOp => .ReceivedByRetailer

/-- Role, id-validity and bound-custodian checks of an operation (everything the
contract checks before the stage gate). -/
def authOk (s : ChainState) (sender mid : Nat) : TransitionOp → Prop
  | .packOp =>
      s.manAddressToId sender ≠ 0 ∧ (0 < mid ∧ mid ≤ s.medicineCtr) ∧
        (s.stock mid).manufacturer = sender
  | .shipToDistributorOp _ =>
      s.manAddressToId sender ≠ 0 ∧ (0 < mid ∧ mid ≤ s.medicineCtr) ∧
        (s.stock mid).manufacturer = sender
  | .receiveByDistributorOp =>
      s.disAddressToId sender ≠ 0 ∧ (0 < mid ∧ mid ≤ s.medicineCtr) ∧
        (s.stock mid).distributor = sender
  | .shipToRetailerOp _ =>
      s.disAddressToId sender ≠ 0 ∧ (0 < mid ∧ mid ≤ s.medicineCtr) ∧
        (s.stock mid).distributor = sender
  | .receiveByRetailerOp =>
      s.retAddressToId sender ≠ 0 ∧ (0 < mid ∧ mid ≤ s.medicineCtr) ∧
        (s.stock mid).retailer = sender
  | .sellOp =>
      s.retAddressToId sender ≠ 0 ∧ (0 < mid ∧ mid ≤ s.medicineCtr) ∧
        (s.stock mid).retailer = sender

end Chain

namespace ChainV8

open Chain (STAGE Medicine emptyMedicine TransitionOp stageNat)

/-- Participant struct of the legacy contract variant (addr, id, name, place). -/
structure PartV8 where
  addr : Nat
  id : Nat
  name : String
  place : String
deriving DecidableEq, Repr

def emptyPartV8 : PartV8 := ⟨0, 0, "", ""⟩

/-- Storage of the legacy SupplyChain contract variant. -/
structure ChainStateV8 where
  owner : Nat
  medicineCtr : Nat
  manCtr : Nat
  disCtr : Nat
  retCtr : Nat
  stock : Nat → Medicine
  MAN : Nat → PartV8
  DIS : Nat → PartV8
  RET : Nat → PartV8
  manAddressToId : Nat → Nat
  disAddressToId : Nat → Nat
  retAddressToId : Nat → Nat

/-- Freshly deployed legacy contract. -/
def deployV8 (sender : Nat) : ChainStateV8 :=
  { owner := sender
    medicineCtr := 0, manCtr := 0, disCtr := 0, retCtr := 0
    stock := fun _ => emptyMedicine
    MAN := fun _ => emptyPartV8
    DIS := fun _ => emptyPartV8
    RET := fun _ => emptyPartV8
    manAddressToId := fun _ => 0
    disAddressToId := fun _ => 0
    retAddressToId := fun _ => 0 }

/-- Legacy `addManufacturer`: only the manufacturer map is checked. -/
def addManufacturerV8 (s : ChainStateV8) (sender addr : Nat) (nm pl : String) :
    Except Err ChainStateV8 :=
  if sender ≠ s.owner then .error ⟨.authorization, "Only owner can call this function"⟩
  else if s.manAddressToId addr ≠ 0 then .error ⟨.conflict, "Manufacturer already registered"⟩
  else .ok { s with manCtr := s.manCtr + 1
                    MAN := updF s.MAN (s.manCtr + 1) ⟨addr, s.manCtr + 1, nm, pl⟩
                    manAddressToId := updF s.manAddressToId addr (s.manCtr + 1) }

/-- Legacy `addDistributor`: only the distributor map is checked. -/
def addDistributorV8 (s : ChainStateV8) (sender addr : Nat) (nm pl : String) :
    Except Err ChainStateV8 :=
  if sender ≠ s.owner then .error ⟨.authorization, "Only owner can call this function"⟩
  else if s.disAddressToId addr ≠ 0 then .error ⟨.conflict, "Distributor already registered"⟩
  else .ok { s with disCtr := s.disCtr + 1
                    DIS := updF s.DIS (s.disCtr + 1) ⟨addr, s.disCtr + 1, nm, pl⟩
                    disAddressToId := updF s.disAddressToId addr (s.disCtr + 1) }

/-- Legacy `addRetailer`: only the retailer map is checked. -/
def addRetailerV8 (s : ChainStateV8) (sender addr : Nat) (nm pl : String) :
    Except Err ChainStateV8 :=
  if sender ≠ s.owner then .error ⟨.authorization, "Only owner can call this function"⟩
  else if s.retAddressToId addr ≠ 0 then .error ⟨.conflict, "Retailer already registered"⟩
  else .ok { s with retCtr := s.retCtr + 1
                    RET := updF s.RET (s.retCtr + 1) ⟨addr, s.retCtr + 1, nm, pl⟩
                    retAddressToId := updF s.retAddressToId addr (s.retCtr + 1) }

/-- Legacy `pack` (require order: role, id, stage, creator). -/
def packV8 (s : ChainStateV8) (sender mid now : Nat) : Except Err ChainStateV8 :=
  if s.manAddressToId sender = 0 then
    .error ⟨.authorization, "Only registered manufacturers can call this function"⟩
  else if ¬(0 < mid ∧ mid ≤ s.medicineCtr) then .error ⟨.validation, "Invalid medicine ID"⟩
  else if (s.stock mid).stage ≠ .Manufactured then
    .error ⟨.state, "Medicine must be in Manufactured stage"⟩
  else if (s.stock mid).manufacturer ≠ sender then
    .error ⟨.authorization, "Only the manufacturer who created this can pack it"⟩
  else .ok { s with stock := updF s.stock mid
                      { s.stock mid with stage := .Packed, updatedAt := now } }

/-- Legacy `shipToDistributor` (takes a distributor registry id). -/
def shipToDistributorV8 (s : ChainStateV8) (sender mid distId now : Nat) :
    Except Err ChainStateV8 :=
  if s.manAddressToId sender = 0 then
    .error ⟨.authorization, "Only registered manufacturers can call this function"⟩
  else if ¬(0 < mid ∧ mid ≤ s.medicineCtr) then .error ⟨.validation, "Invalid medicine ID"⟩
  else if (s.stock mid).stage ≠ .Packed then
    .error ⟨.state, "Medicine must be in Packed stage"⟩
  else if (s.stock mid).manufacturer ≠ sender then
    .error ⟨.authorization, "Only the manufacturer who created this can ship it"⟩
  else if ¬(0 < distId ∧ distId ≤ s.disCtr) then
    .error ⟨.validation, "Invalid distributor ID"⟩
  else .ok { s with stock := updF s.stock mid
                      { s.stock mid with
                          stage := .ShippedToDistributor
                          distributor := (s.DIS distId).addr, DISid := distId
                          updatedAt := now } }

/-- Legacy `receiveByDistributor`. -/
def receiveByDistributorV8 (s : ChainStateV8) (sender mid now : Nat) :
    Except Err ChainStateV8 :=
  if s.disAddressToId sender = 0 then
    .error ⟨.authorization, "Only registered distributors can call this function"⟩
  else if ¬(0 < mid ∧ mid ≤ s.medicineCtr) then .error ⟨.validation, "Invalid medicine ID"⟩
  else if (s.stock mid).stage ≠ .ShippedToDistributor then
    .error ⟨.state, "Medicine must be in ShippedToDistributor stage"⟩
  else if (s.stock mid).distributor ≠ sender then
    .error ⟨.authorization, "Only the assigned distributor can receive this"⟩
  else .ok { s with stock := updF s.stock mid
                      { s.stock mid with stage := .ReceivedByDistributor, updatedAt := now } }

/-- Legacy `shipToRetailer` (takes a retailer registry id). -/
def shipToRetailerV8 (s : ChainStateV8) (sender mid retId now : Nat) :
    Except Err ChainStateV8 :=
  if s.disAddressToId sender = 0 then
    .error ⟨.authorization, "Only registered distributors can call this function"⟩
  else if ¬(0 < mid ∧ mid ≤ s.medicineCtr) then .error ⟨.validation, "Invalid medicine ID"⟩
  else if (s.stock mid).stage ≠ .ReceivedByDistributor then
    .error ⟨.state, "Medicine must be in ReceivedByDistributor stage"⟩
  else if (s.stock mid).distributor ≠ sender then
    .error ⟨.authorization, "Only the assigned distributor can ship this"⟩
  else if ¬(0 < retId ∧ retId ≤ s.retCtr) then
    .error ⟨.validation, "Invalid retailer ID"⟩
  else .ok { s with stock := updF s.stock mid
                      { s.stock mid with
                          stage := .ShippedToRetailer
                          retailer := (s.RET retId).addr, RETid := retId
                          updatedAt := now } }

/-- Legacy `receiveByRetailer`. -/
def receiveByRetailerV8 (s : ChainStateV8) (sender mid now : Nat) :
    Except Err ChainStateV8 :=
  if s.retAddressToId sender = 0 then
    .error ⟨.authorization, "Only registered retailers can call this function"⟩
  else if ¬(0 < mid ∧ mid ≤ s.medicineCtr) then .error ⟨.validation, "Invalid medicine ID"⟩
  else if (s.stock mid).stage ≠ .ShippedToRetailer then
    .error ⟨.state, "Medicine must be in ShippedToRetailer stage"⟩
  else if (s.stock mid).retailer ≠ sender then
    .error ⟨.authorization, "Only the assigned retailer can receive this"⟩
  else .ok { s with stock := updF s.stock mid
                      { s.stock mid with stage := .ReceivedByRetailer, updatedAt := now } }

/-- Legacy `sell`. -/
def sellV8 (s : ChainStateV8) (sender mid now : Nat) : Except Err ChainStateV8 :=
  if s.retAddressToId sender = 0 then
    .error ⟨.authorization, "Only registered retailers can call this function"⟩
  else if ¬(0 < mid ∧ mid ≤ s.medicineCtr) then .error ⟨.validation, "Invalid medicine ID"⟩
  else if (s.stock mid).stage ≠ .ReceivedByRetailer then
    .error ⟨.state, "Medicine must be in ReceivedByRetailer stage"⟩
  else if (s.stock mid).retailer ≠ sender then
    .error ⟨.authorization, "Only the assigned retailer can sell this"⟩
  else .ok { s with stock := updF s.stock mid
                      { s.stock mid with stage := .Sold, updatedAt := now } }

/-- Dispatch a lifecycle operation on the legacy contract (shipping targets are
registry ids there). -/
def applyOpV8 (s : ChainStateV8) (sender mid now : Nat) : TransitionOp → Except Err ChainStateV8
  | .packOp => packV8 s sender mid now
  | .shipToDistributorOp d => shipToDistributorV8 s sender mid d now
  | .receiveByDistributorOp => receiveByDistributorV8 s sender mid now
  | .shipToRetailerOp r => shipToRetailerV8 s sender mid r now
  | .receiveByRetailerOp => receiveByRetailerV8 s sender mid now
  | .sellOp => sellV8 s sender mid now

/-- Role and id checks that precede the stage gate in the legacy contract. -/
def roleIdOkV8 (s : ChainStateV8) (sender mid : Nat) : TransitionOp → Prop
  | .packOp => s.manAddressToId sender ≠ 0 ∧ (0 < mid ∧ mid ≤ s.medicineCtr)
  | .shipToDistributorOp _ => s.manAddressToId sender ≠ 0 ∧ (0 < mid ∧ mid ≤ s.medicineCtr)
  | .receiveByDistributorOp => s.disAddressToId sender ≠ 0 ∧ (0 < mid ∧ mid ≤ s.medicineCtr)
  | .shipToRetailerOp _ => s.disAddressToId sender ≠ 0 ∧ (0 < mid ∧ mid ≤ s.medicineCtr)
  | .receiveByRetailerOp => s.retAddressToId sender ≠ 0 ∧ (0 < mid ∧ mid ≤ s.medicineCtr)
  | .sellOp => s.retAddressToId sender ≠ 0 ∧ (0 < mid ∧ mid ≤ s.medicineCtr)

end ChainV8

/-! ### Backend helpers (server/src/utils/helpers.ts) -/

/-- Model of JS `toLowerCase` on ASCII addresses (per-character lowering). -/
def toLowerCase (s : String) : String := ⟨s.data.map Char.toLower⟩

/-- `createSignMessage(nonce, action)`: the exact challenge string. -/
def createSignMessage (nonce action : String) : String :=
  "Supply Chain DApp Authentication\n\nAction: " ++ action ++ "\nNonce: " ++ nonce ++
    "\n\nSign this message to verify your wallet ownership. This does not cost any gas."

/-- Signature recovery oracle: `ethers.verifyMessage(message, signature)`;
`none` models a thrown "invalid signature format". -/
abbrev Recover := String → String → Option String

/-! ### Product metadata store (server/src/models, ProductDatabase) -/

structure ProductImage where
  url : String
  caption : Option String
  uploadedAt : Nat
deriving DecidableEq, Repr

/-- Off-chain product metadata record (`productId = 0` means unlinked). -/
structure ProductMetadata where
  id : String
  productId : Nat
  name : String
  description : String
  images : List ProductImage
  manufacturer : String
  batchNumber : Option String
  manufacturingDate : Option Nat
  expiryDate : Option Nat
  ingredients : Option (List String)
  certifications : Option (List String)
  createdAt : Nat
  updatedAt : Nat
  createdBy : String
deriving DecidableEq, Repr

/-- The two parallel indexes of `ProductDatabase`. -/
structure ProductDB where
  products : String → Option ProductMetadata
  productIdIndex : Nat → Option String

def ProductDB.empty : ProductDB :=
  { products := fun _ => none, productIdIndex := fun _ => none }

/-- `ProductDatabase.create`: indexes the chain id only when truthy (≠ 0). -/
def ProductDB.create (db : ProductDB) (p : ProductMetadata) : ProductDB :=
  { products := setF db.products p.id p
    productIdIndex :=
      if p.productId ≠ 0 then setF db.productIdIndex p.productId p.id
      else db.productIdIndex }

def ProductDB.findById (db : ProductDB) (id : String) : Option ProductMetadata :=
  db.products id

/-- `ProductDatabase.findByProductId`: reverse lookup through the index. -/
def ProductDB.findByProductId (db : ProductDB) (productId : Nat) : Option ProductMetadata :=
  (db.productIdIndex productId).bind db.products

/-- `ProductDatabase.linkToChain`: sets `productId`, stamps `updatedAt`, indexes. -/
def ProductDB.linkToChain (db : ProductDB) (id : String) (productId now : Nat) :
    Option (ProductDB × ProductMetadata) :=
  match db.products id with
  | none => none
  | some existing =>
      let updated := { existing with productId := productId, updatedAt := now }
      some ({ products := setF db.products id updated
              productIdIndex := setF db.productIdIndex productId id },
            updated)

/-- DTO of `POST /api/products`. -/
structure CreateProductDTO where
  name : String
  description : String
  images : Option (List ProductImage)
  manufacturer : String
  batchNumber : Option String
  manufacturingDate : Option Nat
  expiryDate : Option Nat
  ingredients : Option (List String)
  certifications : Option (List String)
deriving Repr

namespace ProductApi

/-- `POST /api/products` (createProduct controller): stores an unlinked record. -/
def createProduct (db : ProductDB) (dto : CreateProductDTO) (freshId : String) (now : Nat) :
    ProductDB × ProductMetadata :=
  let product : ProductMetadata :=
    { id := freshId, productId := 0
      name := dto.name.trim, description := dto.description
      images := dto.images.getD []
      manufacturer := toLowerCase dto.manufacturer
      batchNumber := dto.batchNumber
      manufacturingDate := dto.manufacturingDate, expiryDate := dto.expiryDate
      ingredients := dto.ingredients, certifications := dto.certifications
      createdAt := now, updatedAt := now
      createdBy := toLowerCase dto.manufacturer }
  (db.create product, product)

/-- `POST /api/products/:id/link` (linkToChain controller). -/
def linkToChain (db : ProductDB) (id : String) (productId now : Nat) :
    ProductDB × Except Err ProductMetadata :=
  if productId < 1 then
    (db, .error ⟨.validation, "Valid productId (number >= 1) is required"⟩)
  else
    match db.findByProductId productId with
    | some _ =>
        (db, .error ⟨.conflict,
          "Chain ID " ++ toString productId ++ " is already linked to another product"⟩)
    | none =>
        match db.linkToChain id productId now with
        | none => (db, .error ⟨.notFound, "Product not found"⟩)
        | some (db', updated) => (db', .ok updated)

end ProductApi

/-! ### Client hybrid reconciliation service (createHybridProduct / getHybridProduct) -/

/-- Stage display table of the hybrid service (legacy six-entry list). -/
def STAGE_NAMES : List String :=
  ["Init", "Raw Material Supply", "Manufacture", "Distribution", "Retail", "Sold"]

/-- External effects performed by `createHybridProduct`, in order. -/
inductive HEff where
  | apiCreateEff
  | ledgerWriteEff
  | linkEff
deriving DecidableEq, Repr

/-- Outcomes of the three external calls `createHybridProduct` makes:
backend metadata creation (failure message or created internal id), the ledger
write (throw message, or the `MedicineCreated` event id with the
`medicineCtr` fallback), and the link call's success flag. -/
structure HybridEnv where
  apiCreate : Except String String
  ledgerCall : Except String (Option Nat × Nat)
  linkOk : Bool

/-- Return shape of `createHybridProduct`. -/
structure CHResult where
  success : Bool
  chainId : Option Nat
  internalId : Option String
  error : Option String
deriving DecidableEq, Repr

/-- `createHybridProduct`: metadata first, then ledger, then link; a link
failure only logs a warning.  Also returns the trace of external effects. -/
def createHybridProduct (env : HybridEnv) : CHResult × List HEff :=
  match env.apiCreate with
  | .error msg =>
      ({ success := false, chainId := none, internalId := none, error := some msg },
       [.apiCreateEff])
  | .ok internalId =>
      match env.ledgerCall with
      | .error msg =>
          -- the thrown ledger error lands in the catch-all handler
          ({ success := false, chainId := none, internalId := none, error := some msg },
           [.apiCreateEff, .ledgerWriteEff])
      | .ok (eventId, ctr) =>
          let chainId := eventId.getD ctr
          ({ success := true, chainId := some chainId, internalId := some internalId
             error := none },
           [.apiCreateEff, .ledgerWriteEff, .linkEff])

/-- The on-chain fields `getHybridProduct` reads from `getMedicine`. -/
structure OnChainRaw where
  createdBy : String
  stage : Nat
  createdAt : Nat
  updatedAt : Nat
  RMSid : Nat
  MANid : Nat
  DISid : Nat
  RETid : Nat
deriving DecidableEq, Repr

/-- The metadata fields the hybrid view copies from the backend record. -/
structure MetaView where
  id : String
  name : String
  description : String
  images : List ProductImage
  manufacturer : String
  batchNumber : Option String
  expiryDate : Option Nat
  ingredients : Option (List String)
  certifications : Option (List String)
deriving DecidableEq, Repr

def toMetaView (m : ProductMetadata) : MetaView :=
  { id := m.id, name := m.name, description := m.description, images := m.images
    manufacturer := m.manufacturer, batchNumber := m.batchNumber
    expiryDate := m.expiryDate, ingredients := m.ingredients
    certifications := m.certifications }

/-- The merged read-side view. -/
structure HybridProduct where
  chainId : Nat
  createdBy : String
  stage : Nat
  stageName : String
  createdAt : Nat
  updatedAt : Nat
  RMSid : Nat
  MANid : Nat
  DISid : Nat
  RETid : Nat
  metadata : Option MetaView
  hasMetadata : Bool
deriving DecidableEq, Repr

/-- `getHybridProduct`: on-chain call result (none = throw ⇒ null), then the
optional backend metadata is merged in.  `stageName` is
`STAGE_NAMES[stage] || 'Unknown'`. -/
def getHybridProduct (chainId : Nat) (onChain : Option OnChainRaw)
    (meta : Option MetaView) : Option HybridProduct :=
  match onChain with
  | none => none
  | some oc =>
      some { chainId := chainId
             createdBy := oc.createdBy
             stage := oc.stage
             stageName := (STAGE_NAMES.get? oc.stage).getD "Unknown"
             createdAt := oc.createdAt, updatedAt := oc.updatedAt
             RMSid := oc.RMSid, MANid := oc.MANid, DISid := oc.DISid, RETid := oc.RETid
             metadata := meta
             hasMetadata := meta.isSome }

/-! ### User/identity store (server/src/models, UserDatabase) -/

structure Profile where
  name : Option String
  email : Option String
  company : Option String
  location : Option String
  avatar : Option String
deriving DecidableEq, Repr

def emptyProfile : Profile := ⟨none, none, none, none, none⟩

/-- JS object spread `{ ...base, ...p }` where `none` marks an absent key. -/
def mergeProfile (base p : Profile) : Profile :=
  { name := p.name.orElse fun _ => base.name
    email := p.email.orElse fun _ => base.email
    company := p.company.orElse fun _ => base.company
    location := p.location.orElse fun _ => base.location
    avatar := p.avatar.orElse fun _ => base.avatar }

structure LinkedWalletEntry where
  address : String
  isPrimary : Bool
  addedAt : Nat
  provider : Option String
  lastUsedAt : Option Nat
deriving DecidableEq, Repr

structure User where
  id : String
  primaryWallet : String
  linkedWallets : List LinkedWalletEntry
  nonce : String
  role : String
  profile : Profile
  linkedAt : Nat
  lastLoginAt : Option Nat
deriving DecidableEq, Repr

/-- The two parallel indexes of `UserDatabase`. -/
structure UserDB where
  usersById : String → Option User
  walletIndex : String → Option String

def UserDB.emptyDB : UserDB :=
  { usersById := fun _ => none, walletIndex := fun _ => none }

/-- `UserDatabase.create`: ensures the primary wallet is in `linkedWallets`,
normalizes all addresses, stores by id and indexes every linked wallet. -/
def UserDB.create (db : UserDB) (user : User) (now : Nat) : UserDB × User :=
  let normalizedPrimary := toLowerCase user.primaryWallet
  let lw0 :=
    if user.linkedWallets.any (fun w => toLowerCase w.address == normalizedPrimary) then
      user.linkedWallets
    else
      ⟨normalizedPrimary, true, now, some "MetaMask", none⟩ :: user.linkedWallets
  let user' := { user with
                   primaryWallet := normalizedPrimary
                   linkedWallets := lw0.map fun w => { w with address := toLowerCase w.address } }
  ({ usersById := setF db.usersById user.id user'
     walletIndex := user'.linkedWallets.foldl (fun m w => setF m w.address user.id)
       db.walletIndex },
   user')

/-- `UserDatabase.findByWallet`: index lookup then primary-store lookup. -/
def UserDB.findByWallet (db : UserDB) (walletAddress : String) : Option User :=
  (db.walletIndex (toLowerCase walletAddress)).bind db.usersById

def UserDB.findById (db : UserDB) (id : String) : Option User :=
  db.usersById id

def UserDB.isWalletTaken (db : UserDB) (walletAddress : String) : Bool :=
  (db.walletIndex (toLowerCase walletAddress)).isSome

/-- `UserDatabase.addWalletToUser`: rejects a wallet the index already holds,
appends the entry (normalized, `addedAt` restamped) and indexes it. -/
def UserDB.addWalletToUser (db : UserDB) (userId : String) (entry : LinkedWalletEntry)
    (now : Nat) : Option (UserDB × User) :=
  match db.usersById userId with
  | none => none
  | some user =>
      let normalizedAddress := toLowerCase entry.address
      if (db.walletIndex normalizedAddress).isSome then none
      else
        let user' := { user with
          linkedWallets :=
            user.linkedWallets ++ [{ entry with address := normalizedAddress, addedAt := now }] }
        some ({ usersById := setF db.usersById userId user'
                walletIndex := setF db.walletIndex normalizedAddress userId },
              user')

/-- `UserDatabase.removeWalletFromUser`: refuses the primary, filters the entry
out and frees the index slot. -/
def UserDB.removeWalletFromUser (db : UserDB) (userId walletAddress : String) :
    Option (UserDB × User) :=
  match db.usersById userId with
  | none => none
  | some user =>
      let normalizedAddress := toLowerCase walletAddress
      if user.primaryWallet = normalizedAddress then none
      else
        let user' := { user with
          linkedWallets := user.linkedWallets.filter fun w => w.address ≠ normalizedAddress }
        some ({ usersById := setF db.usersById userId user'
                walletIndex := delF db.walletIndex normalizedAddress },
              user')

/-- `UserDatabase.setPrimaryWallet`: requires membership, then flips
`isPrimary` by address equality and updates `primaryWallet`. -/
def UserDB.setPrimaryWallet (db : UserDB) (userId walletAddress : String) :
    Option (UserDB × User) :=
  match db.usersById userId with
  | none => none
  | some user =>
      let normalizedAddress := toLowerCase walletAddress
      match user.linkedWallets.find? (fun w => w.address == normalizedAddress) with
      | none => none
      | some _ =>
          let user' := { user with
            primaryWallet := normalizedAddress
            linkedWallets := user.linkedWallets.map fun w =>
              { w with isPrimary := w.address == normalizedAddress } }
          some ({ db with usersById := setF db.usersById userId user' }, user')

/-- The `Partial<User>` updates the controllers pass to `UserDatabase.update`. -/
structure UserUpd where
  nonce : Option String
  lastLoginAt : Option Nat
  profile : Option Profile
  role : Option String
deriving Repr

def applyUpd (u : User) (upd : UserUpd) : User :=
  { u with nonce := upd.nonce.getD u.nonce
           lastLoginAt := (upd.lastLoginAt.map some).getD u.lastLoginAt
           profile := upd.profile.getD u.profile
           role := upd.role.getD u.role }

/-- `UserDatabase.update`: finds by any wallet, merges, stores by the user id. -/
def UserDB.update (db : UserDB) (walletAddress : String) (upd : UserUpd) :
    Option (UserDB × User) :=
  match db.findByWallet walletAddress with
  | none => none
  | some user =>
      let updated := applyUpd user upd
      some ({ db with usersById := setF db.usersById user.id updated }, updated)

/-! ### Auth controllers (server/src/controllers/authController.ts) -/

namespace AuthApi

/-- `GET /api/auth/nonce/:walletAddress` (getNonce): creates the identity on
first request, otherwise returns the stored nonce; returns (nonce, message,
isNewUser). -/
def getNonce (db : UserDB) (walletAddress freshId freshNonce : String) (now : Nat) :
    UserDB × Except Err (String × String × Bool) :=
  let normalizedAddress := toLowerCase walletAddress
  match db.findByWallet normalizedAddress with
  | some user =>
      (db, .ok (user.nonce, createSignMessage user.nonce "link-wallet", false))
  | none =>
      let newUser : User :=
        { id := freshId, primaryWallet := normalizedAddress
          linkedWallets := [⟨normalizedAddress, true, now, some "MetaMask", none⟩]
          nonce := freshNonce, role := "unregistered", profile := emptyProfile
          linkedAt := now, lastLoginAt := none }
      let (db', u) := db.create newUser now
      (db', .ok (u.nonce, createSignMessage u.nonce "link-wallet", true))

/-- `POST /api/auth/link` (linkWallet): the completeLink operation. -/
def linkWallet (db : UserDB) (recover : Recover) (freshNonce : String) (now : Nat)
    (walletAddress signature message : String) (profile : Option Profile) :
    UserDB × Except Err User :=
  if walletAddress = "" ∨ signature = "" ∨ message = "" then
    (db, .error ⟨.validation, "walletAddress, signature, and message are required"⟩)
  else
    let normalizedAddress := toLowerCase walletAddress
    match db.findByWallet normalizedAddress with
    | none =>
        (db, .error ⟨.validation,
          "Please request a nonce first via GET /api/auth/nonce/:walletAddress"⟩)
    | some user =>
        let expectedMessage := createSignMessage user.nonce "link-wallet"
        if message ≠ expectedMessage then
          (db, .error ⟨.signature, "Invalid message. Please request a fresh nonce and try again."⟩)
        else
          match recover message signature with
          | none => (db, .error ⟨.signature, "Invalid signature format"⟩)
          | some recoveredAddress =>
              if toLowerCase recoveredAddress ≠ normalizedAddress then
                (db, .error ⟨.signature,
                  "Signature verification failed. The signature does not match the wallet address."⟩)
              else
                match db.update normalizedAddress
                    ⟨some freshNonce, some now,
                     some (match profile with
                           | some p => mergeProfile user.profile p
                           | none => user.profile), none⟩ with
                | none => (db, .error ⟨.internal, "Failed to update user"⟩)
                | some (db', updatedUser) => (db', .ok updatedUser)

/-- `POST /api/user/link-wallet` (addLinkedWallet): the addSecondaryWallet
operation; the signed message carries no nonce. -/
def addLinkedWallet (db : UserDB) (recover : Recover) (now : Nat)
    (addressToLink signature userId : String) : UserDB × Except Err User :=
  if addressToLink = "" ∨ signature = "" ∨ userId = "" then
    (db, .error ⟨.validation, "addressToLink, signature, and userId are required"⟩)
  else
    let normalizedAddress := toLowerCase addressToLink
    match db.findById userId with
    | none => (db, .error ⟨.notFound, "User not found"⟩)
    | some user =>
        if db.isWalletTaken normalizedAddress then
          (db, .error ⟨.conflict, "This wallet is already linked to an account"⟩)
        else
          let message := "Link wallet " ++ addressToLink ++ " to ChainGuard account"
          match recover message signature with
          | none => (db, .error ⟨.signature, "Invalid signature format"⟩)
          | some recoveredAddress =>
              if toLowerCase recoveredAddress ≠ normalizedAddress then
                (db, .error ⟨.signature,
                  "Signature verification failed. The signature must come from the wallet being linked."⟩)
              else
                let walletEntry : LinkedWalletEntry :=
                  ⟨normalizedAddress, false, now, some "MetaMask", none⟩
                match db.addWalletToUser userId walletEntry now with
                | none =>
                    (db, .error ⟨.internal,
                      "Failed to link wallet. It may already be linked to another account."⟩)
                | some (db1, updatedUser) =>
                    let db2 := match db1.update user.primaryWallet ⟨none, some now, none, none⟩ with
                               | none => db1
                               | some (d, _) => d
                    (db2, .ok updatedUser)

/-- `DELETE /api/user/wallet/:address` (removeLinkedWallet). -/
def removeLinkedWallet (db : UserDB) (address userId : String) : UserDB × Except Err User :=
  if userId = "" then (db, .error ⟨.validation, "userId is required"⟩)
  else
    let normalizedAddress := toLowerCase address
    match db.findById userId with
    | none => (db, .error ⟨.notFound, "User not found"⟩)
    | some user =>
        if ¬ user.linkedWallets.any (fun w => w.address == normalizedAddress) then
          (db, .error ⟨.validation, "This wallet is not linked to your account"⟩)
        else if user.primaryWallet = normalizedAddress then
          (db, .error ⟨.validation,
            "Cannot remove primary wallet. Set a different wallet as primary first."⟩)
        else
          match db.removeWalletFromUser userId normalizedAddress with
          | none => (db, .error ⟨.internal, "Failed to remove wallet"⟩)
          | some (db', updatedUser) => (db', .ok updatedUser)

/-- `PUT /api/user/primary-wallet` (setPrimaryWallet controller). -/
def setPrimaryWallet (db : UserDB) (userId walletAddress : String) :
    UserDB × Except Err User :=
  if userId = "" ∨ walletAddress = "" then
    (db, .error ⟨.validation, "userId and walletAddress are required"⟩)
  else
    let normalizedAddress := toLowerCase walletAddress
    match db.setPrimaryWallet userId normalizedAddress with
    | none =>
        (db, .error ⟨.validation,
          "Failed to set primary wallet. Wallet may not belong to this user."⟩)
    | some (db', updatedUser) => (db', .ok updatedUser)

/-- `POST /api/auth/verify` (verifySignature): standalone verification; the
message is never compared against the stored nonce; on success the nonce is
rotated and the pre-update user is returned. -/
def verifySignature (db : UserDB) (recover : Recover) (freshNonce : String) (now : Nat)
    (walletAddress signature message : String) : UserDB × Except Err User :=
  if walletAddress = "" ∨ signature = "" ∨ message = "" then
    (db, .error ⟨.validation, "walletAddress, signature, and message are required"⟩)
  else
    let normalizedAddress := toLowerCase walletAddress
    match db.findByWallet normalizedAddress with
    | none => (db, .error ⟨.notFound, "User not found. Please link your wallet first."⟩)
    | some user =>
        match recover message signature with
        | none => (db, .error ⟨.signature, "Invalid signature format"⟩)
        | some recoveredAddress =>
            if toLowerCase recoveredAddress ≠ normalizedAddress then
              (db, .error ⟨.signature, "Signature verification failed"⟩)
            else
              let db' := match db.update normalizedAddress ⟨some freshNonce, some now, none, none⟩ with
                         | none => db
                         | some (d, _) => d
              (db', .ok user)

/-- `PUT /api/auth/user/:walletAddress` (updateUserProfile). -/
def updateUserProfile (db : UserDB) (walletAddress : String) (profile : Option Profile)
    (role : Option String) : UserDB × Except Err User :=
  match db.findByWallet walletAddress with
  | none => (db, .error ⟨.notFound, "User not found"⟩)
  | some user =>
      let upd : UserUpd :=
        ⟨none, none, profile.map (fun p => mergeProfile user.profile p), role⟩
      match db.update walletAddress upd with
      | none => (db, .error ⟨.internal, "Failed to update user"⟩)
      | some (db', updated) => (db', .ok updated)

end AuthApi

/-! ### Invariants and operation wrappers used by the statements -/

/-- Well-formedness of the two parallel user indexes: stored users carry their
own key, and every linked wallet address is indexed to its owner. -/
def wfIndexed (db : UserDB) : Prop :=
  (∀ uid u, db.usersById uid = some u → u.id = uid) ∧
  (∀ uid u e, db.usersById uid = some u → e ∈ u.linkedWallets →
      db.walletIndex e.address = some uid)

/-- A wallet address appears in at most one `UserIdentity` system-wide. -/
def walletsUnique (db : UserDB) : Prop :=
  ∀ uid1 uid2 u1 u2 e1 e2,
    db.usersById uid1 = some u1 → db.usersById uid2 = some u2 →
    e1 ∈ u1.linkedWallets → e2 ∈ u2.linkedWallets →
    e1.address = e2.address → uid1 = uid2

/-- Per-user shape invariant: exactly one entry is primary, the primary entry
carries `primaryWallet`, and addresses inside one user are distinct. -/
def primaryInv (u : User) : Prop :=
  u.linkedWallets.countP (fun w => w.isPrimary) = 1 ∧
  (∀ e ∈ u.linkedWallets, e.isPrimary = true → e.address = u.primaryWallet) ∧
  (u.linkedWallets.map fun w => w.address).Nodup

/-- Full store invariant for the identity service. -/
def identInv (db : UserDB) : Prop :=
  wfIndexed db ∧ ∀ uid u, db.usersById uid = some u → primaryInv u

/-- The public identity operations reachable through the auth controllers,
with the request payload and the generated ids/nonces/time as arguments. -/
inductive AuthOp where
  | getNonceOp (walletAddress freshId freshNonce : String) (now : Nat)
  | linkWalletOp (freshNonce : String) (now : Nat)
      (walletAddress signature message : String) (profile : Option Profile)
  | addLinkedWalletOp (now : Nat) (addressToLink signature userId : String)
  | removeLinkedWalletOp (address userId : String)
  | setPrimaryWalletOp (userId walletAddress : String)
  | verifySignatureOp (freshNonce : String) (now : Nat)
      (walletAddress signature message : String)
  | updateUserProfileOp (walletAddress : String) (profile : Option Profile)
      (role : Option String)

/-- Resulting store of one controller call. -/
def applyAuthOp (db : UserDB) (recover : Recover) : AuthOp → UserDB
  | .getNonceOp walletAddress freshId freshNonce now =>
      (AuthApi.getNonce db walletAddress freshId freshNonce now).1
  | .linkWalletOp freshNonce now walletAddress signature message profile =>
      (AuthApi.linkWallet db recover freshNonce now walletAddress signature message profile).1
  | .addLinkedWalletOp now addressToLink signature userId =>
      (AuthApi.addLinkedWallet db recover now addressToLink signature userId).1
  | .removeLinkedWalletOp address userId =>
      (AuthApi.removeLinkedWallet db address userId).1
  | .setPrimaryWalletOp userId walletAddress =>
      (AuthApi.setPrimaryWallet db userId walletAddress).1
  | .verifySignatureOp freshNonce now walletAddress signature message =>
      (AuthApi.verifySignature db recover freshNonce now walletAddress signature message).1
  | .updateUserProfileOp walletAddress profile role =>
      (AuthApi.updateUserProfile db walletAddress profile role).1

/-- Erase the stored challenge value (used to relate nonce-variant stores). -/
def eraseNonce (u : User) : User := { u with nonce := "" }

/-- Two stores that agree on everything except possibly stored nonces. -/
def nonceAgnostic (db1 db2 : UserDB) : Prop :=
  db1.walletIndex = db2.walletIndex ∧
  ∀ uid, (db1.usersById uid).map eraseNonce = (db2.usersById uid).map eraseNonce

/-! ### Concrete fixtures for counterexamples and witnesses -/

/-- Main contract: owner 1, manufacturer 10, distributor 20, retailer 30,
one medicine created by 10, shipped through to the retailer (stage 4). -/
def wC1State : Chain.ChainState :=
  { owner := 1, medicineCtr := 1, manCtr := 1, disCtr := 1, retCtr := 1
    stock := updF (fun _ => Chain.emptyMedicine) 1
      { id := 1, manufacturer := 10, distributor := 20, retailer := 30
        stage := .ShippedToRetailer, createdAt := 2, updatedAt := 8
        MANid := 1, DISid := 1, RETid := 1 }
    MAN := updF (fun _ => Chain.emptyParticipant) 1 ⟨10, 1, 2, true⟩
    DIS := updF (fun _ => Chain.emptyParticipant) 1 ⟨20, 1, 2, true⟩
    RET := updF (fun _ => Chain.emptyParticipant) 1 ⟨30, 1, 2, true⟩
    manAddressToId := updF (fun _ => 0) 10 1
    disAddressToId := updF (fun _ => 0) 20 1
    retAddressToId := updF (fun _ => 0) 30 1 }

/-- `wC1State` after the bound retailer receives medicine 1 at time 9. -/
def wC1AfterRecv : Chain.ChainState :=
  { wC1State with
      stock := updF wC1State.stock 1
        { wC1State.stock 1 with stage := .ReceivedByRetailer, updatedAt := 9 } }

/-- Legacy contract fixture mirroring `wC1State`. -/
def wV8State : ChainV8.ChainStateV8 :=
  { owner := 1, medicineCtr := 1, manCtr := 1, disCtr := 1, retCtr := 1
    stock := updF (fun _ => Chain.emptyMedicine) 1
      { id := 1, manufacturer := 10, distributor := 20, retailer := 30
        stage := .ShippedToRetailer, createdAt := 2, updatedAt := 8
        MANid := 1, DISid := 1, RETid := 1 }
    MAN := updF (fun _ => ChainV8.emptyPartV8) 1 ⟨10, 1, "M", "HN"⟩
    DIS := updF (fun _ => ChainV8.emptyPartV8) 1 ⟨20, 1, "D", "HN"⟩
    RET := updF (fun _ => ChainV8.emptyPartV8) 1 ⟨30, 1, "R", "HN"⟩
    manAddressToId := updF (fun _ => 0) 10 1
    disAddressToId := updF (fun _ => 0) 20 1
    retAddressToId := updF (fun _ => 0) 30 1 }

/-- Main contract: two registered manufacturers (10 and 11); medicine 1 was
created by 10 and is already Packed. -/
def cexC1State : Chain.ChainState :=
  { owner := 1, medicineCtr := 1, manCtr := 2, disCtr := 0, retCtr := 0
    stock := updF (fun _ => Chain.emptyMedicine) 1
      { id := 1, manufacturer := 10, distributor := 0, retailer := 0
        stage := .Packed, createdAt := 2, updatedAt := 3
        MANid := 1, DISid := 0, RETid := 0 }
    MAN := updF (updF (fun _ => Chain.emptyParticipant) 1 ⟨10, 1, 2, true⟩) 2 ⟨11, 2, 2, true⟩
    DIS := fun _ => Chain.emptyParticipant
    RET := fun _ => Chain.emptyParticipant
    manAddressToId := updF (updF (fun _ => 0) 10 1) 11 2
    disAddressToId := fun _ => 0
    retAddressToId := fun _ => 0 }

/-- Legacy contract with address 5 registered as a Manufacturer. -/
def cexV8Reg : ChainV8.ChainStateV8 :=
  { ChainV8.deployV8 1 with
      manCtr := 1
      MAN := updF (fun _ => ChainV8.emptyPartV8) 1 ⟨5, 1, "M", "HN"⟩
      manAddressToId := updF (fun _ => 0) 5 1 }

/-- Main contract with address 7 registered as a Distributor. -/
def wC3Main : Chain.ChainState :=
  { Chain.deploy 1 with
      disCtr := 1
      DIS := updF (fun _ => Chain.emptyParticipant) 1 ⟨7, 1, 2, true⟩
      disAddressToId := updF (fun _ => 0) 7 1 }

/-- An unlinked metadata record. -/
def cexMeta : ProductMetadata :=
  { id := "p1", productId := 0, name := "Aspirin", description := "Pain relief"
    images := [], manufacturer := "0xman", batchNumber := none
    manufacturingDate := none, expiryDate := none, ingredients := none
    certifications := none, createdAt := 1, updatedAt := 1, createdBy := "0xman" }

/-- Product store holding just `cexMeta`, still unlinked. -/
def cexLinkDB : ProductDB := ProductDB.empty.create cexMeta

/-- Environment where metadata creation succeeds and the ledger write throws. -/
def cexHybridEnv : HybridEnv := ⟨.ok "m1", .error "ledger write failed", true⟩

/-- Environment for a full success whose final link step fails. -/
def wHybridEnvLinkFail : HybridEnv := ⟨.ok "m2", .ok (some 7, 7), false⟩

/-- Environment where the metadata creation itself fails. -/
def wHybridEnvMetaFail : HybridEnv := ⟨.error "metadata save failed", .ok (some 1, 1), true⟩

/-- On-chain record at stage 6 (Sold) as read by the hybrid service. -/
def cexOnChain6 : OnChainRaw := ⟨"0xman", 6, 100, 200, 0, 1, 2, 3⟩

/-- On-chain record at stage 0 (Manufactured) as read by the hybrid service. -/
def cexOnChain0 : OnChainRaw := ⟨"0xman", 0, 100, 100, 0, 1, 0, 0⟩

/-- Identity fixture: one user `u1` whose single (primary) wallet is `0xab`. -/
def wUser0 : User :=
  { id := "u1", primaryWallet := "0xab"
    linkedWallets := [⟨"0xab", true, 0, some "MetaMask", none⟩]
    nonce := "nonce0", role := "unregistered", profile := emptyProfile
    linkedAt := 0, lastLoginAt := none }

/-- Store holding `wUser0` under both indexes. -/
def wAuthDB : UserDB :=
  { usersById := fun i => if i = "u1" then some wUser0 else none
    walletIndex := fun w => if w = "0xab" then some "u1" else none }

/-- Recovery oracle: signature `sig-ab` recovers `0xAB`, `sig-cd` recovers
`0xCD`, everything else is malformed. -/
def wRecover : Recover := fun _ signature =>
  if signature = "sig-ab" then some "0xAB"
  else if signature = "sig-cd" then some "0xCD"
  else none

/-- The challenge message for `wUser0`'s stored nonce. -/
def wLinkMsg : String := createSignMessage "nonce0" "link-wallet"

/-- `wUser0` after a successful completeLink rotated the nonce to `nonce1`. -/
def wUser1 : User := { wUser0 with nonce := "nonce1", lastLoginAt := some 5 }

/-- `wAuthDB` after that successful completeLink. -/
def wAuthDB1 : UserDB :=
  { wAuthDB with usersById := setF wAuthDB.usersById "u1" wUser1 }

/-- The identity created by a first getNonce for `0xAB` with id `u9`. -/
def wC9User : User :=
  { id := "u9", primaryWallet := "0xab"
    linkedWallets := [⟨"0xab", true, 3, some "MetaMask", none⟩]
    nonce := "n0", role := "unregistered", profile := emptyProfile
    linkedAt := 3, lastLoginAt := none }

/-- A nonce-variant of `wAuthDB`: same user but a different stored nonce. -/
def wAuthDBAltNonce : UserDB :=
  { usersById := fun i => if i = "u1" then some { wUser0 with nonce := "other" } else none
    walletIndex := fun w => if w = "0xab" then some "u1" else none }

/-- The user record after a successful completeLink: nonce rotated to the
fresh value, `lastLoginAt` stamped, optional profile fields merged. -/
def linkedUserAfter (u0 : User) (n1 : String) (now : Nat) (profile : Option Profile) :
    User :=
  applyUpd u0 ⟨some n1, some now,
    some (match profile with
          | some p => mergeProfile u0.profile p
          | none => u0.profile), none⟩

/-- The store after that successful completeLink for `u0`. -/
def dbAfterLink (db : UserDB) (u0 : User) (n1 : String) (now : Nat)
    (profile : Option Profile) : UserDB :=
  { db with usersById := setF db.usersById u0.id (linkedUserAfter u0 n1 now profile) }

/-! ## Theorems -/

@[simp] theorem updF_same {α β : Type} [DecidableEq α] (m : α → β) (k : α) (v : β) :
    updF m k v k = v := by simp [updF]

@[simp] theorem setF_same {α β : Type} [DecidableEq α] (m : α → Option β) (k : α) (v : β) :
    setF m k v k = some v := by simp [setF]

theorem updF_other {α β : Type} [DecidableEq α] (m : α → β) (k x : α) (v : β)
    (h : x ≠ k) : updF m k v x = m x := by simp [updF, h]

theorem setF_other {α β : Type} [DecidableEq α] (m : α → Option β) (k x : α) (v : β)
    (h : x ≠ k) : setF m k v x = m x := by simp [setF, h]

theorem delF_other {α β : Type} [DecidableEq α] (m : α → Option β) (k x : α)
    (h : x ≠ k) : delF m k x = m x := by simp [delF, h]

/-- Inversion of a successful lifecycle call on the main contract: the item was
in the operation's exact precondition stage and its stage ordinal advanced by
exactly one. -/
theorem main_ok_advance {s : Chain.ChainState} {sender mid now : Nat}
    {op : Chain.TransitionOp} {s' : Chain.ChainState}
    (h : Chain.applyOp s sender mid now op = .ok s') :
    (s.stock mid).stage = Chain.precondStage op ∧
    Chain.stageNat ((s'.stock mid).stage) = Chain.stageNat ((s.stock mid).stage) + 1 := by
  cases op <;>
    (simp only [Chain.applyOp, Chain.packMedicine, Chain.shipToDistributor,
       Chain.receiveByDistributor, Chain.shipToRetailer, Chain.receiveByRetailer,
       Chain.sellMedicine] at h;
     repeat' split at h;
     all_goals simp at h;
     all_goals (subst h; refine ⟨?_, ?_⟩ <;>
       simp_all [Chain.precondStage, Chain.stageNat, updF]))

/-- Inversion of a successful lifecycle call on the legacy contract. -/
theorem v8_ok_advance {s : ChainV8.ChainStateV8} {sender mid now : Nat}
    {op : Chain.TransitionOp} {s' : ChainV8.ChainStateV8}
    (h : ChainV8.applyOpV8 s sender mid now op = .ok s') :
    (s.stock mid).stage = Chain.precondStage op ∧
    Chain.stageNat ((s'.stock mid).stage) = Chain.stageNat ((s.stock mid).stage) + 1 := by
  cases op <;>
    (simp only [ChainV8.applyOpV8, ChainV8.packV8, ChainV8.shipToDistributorV8,
       ChainV8.receiveByDistributorV8, ChainV8.shipToRetailerV8,
       ChainV8.receiveByRetailerV8, ChainV8.sellV8] at h;
     repeat' split at h;
     all_goals simp at h;
     all_goals (subst h; refine ⟨?_, ?_⟩ <;>
       simp_all [Chain.precondStage, Chain.stageNat, updF]))

/-- A wrong-stage call on the main contract never succeeds. -/
theorem main_wrong_stage_fails {s : Chain.ChainState} {sender mid now : Nat}
    {op : Chain.TransitionOp} (hne : (s.stock mid).stage ≠ Chain.precondStage op) :
    isOkE (Chain.applyOp s sender mid now op) = false := by
  cases hres : Chain.applyOp s sender mid now op with
  | ok s' => exact absurd (main_ok_advance hres).1 hne
  | error e => rfl

/-- A wrong-stage call on the legacy contract never succeeds. -/
theorem v8_wrong_stage_fails {s : ChainV8.ChainStateV8} {sender mid now : Nat}
    {op : Chain.TransitionOp} (hne : (s.stock mid).stage ≠ Chain.precondStage op) :
    isOkE (ChainV8.applyOpV8 s sender mid now op) = false := by
  cases hres : ChainV8.applyOpV8 s sender mid now op with
  | ok s' => exact absurd (v8_ok_advance hres).1 hne
  | error e => rfl

/-- On the main contract, a wrong-stage call by a caller who passes the role,
id-validity and bound-custodian checks fails with the StateError revert. -/
theorem main_wrong_stage_state_error {s : Chain.ChainState} {sender mid now : Nat}
    {op : Chain.TransitionOp} (hne : (s.stock mid).stage ≠ Chain.precondStage op)
    (hauth : Chain.authOk s sender mid op) :
    errKindOf (Chain.applyOp s sender mid now op) = some ErrKind.state := by
  cases op <;>
    (simp only [Chain.authOk] at hauth
     simp only [Chain.precondStage] at hne
     obtain ⟨hr, hid, hc⟩ := hauth
     simp [Chain.applyOp, Chain.packMedicine, Chain.shipToDistributor,
       Chain.receiveByDistributor, Chain.shipToRetailer, Chain.receiveByRetailer,
       Chain.sellMedicine, hr, hid, hc, hne, errKindOf])

/-- On the legacy contract, a wrong-stage call by a caller who passes the role
and id-validity checks fails with the StateError revert (there the stage gate
precedes the custodian check). -/
theorem v8_wrong_stage_state_error {s : ChainV8.ChainStateV8} {sender mid now : Nat}
    {op : Chain.TransitionOp} (hne : (s.stock mid).stage ≠ Chain.precondStage op)
    (hauth : ChainV8.roleIdOkV8 s sender mid op) :
    errKindOf (ChainV8.applyOpV8 s sender mid now op) = some ErrKind.state := by
  cases op <;>
    (simp only [ChainV8.roleIdOkV8] at hauth
     simp only [Chain.precondStage] at hne
     obtain ⟨hr, hid⟩ := hauth
     simp [ChainV8.applyOpV8, ChainV8.packV8, ChainV8.shipToDistributorV8,
       ChainV8.receiveByDistributorV8, ChainV8.shipToRetailerV8,
       ChainV8.receiveByRetailerV8, ChainV8.sellV8, hr, hid, hne, errKindOf])

/-- C1 (amended): on both contracts, a successful lifecycle call
(pack/shipToDistributor/receiveByDistributor/shipToRetailer/receiveByRetailer/
sell) happens only from the operation's exact precondition stage and advances
the item's stage ordinal by exactly one (so the stage never regresses or
skips); any call made from the wrong stage reverts, and that revert is the
StateError reason whenever the caller passes the checks that precede the stage
gate (role, id validity and bound custodian on the main contract; role and id
validity on the legacy variant) — otherwise the revert carries the earlier
check's authorization/validation reason. -/
theorem lifecycle_advances_exactly_one_step
    (s : Chain.ChainState) (s8 : ChainV8.ChainStateV8)
    (sender sender8 mid mid8 now now8 : Nat) (op : Chain.TransitionOp) :
    (∀ s', Chain.applyOp s sender mid now op = .ok s' →
        (s.stock mid).stage = Chain.precondStage op ∧
        Chain.stageNat ((s'.stock mid).stage) =
          Chain.stageNat ((s.stock mid).stage) + 1) ∧
    ((s.stock mid).stage ≠ Chain.precondStage op →
        isOkE (Chain.applyOp s sender mid now op) = false) ∧
    ((s.stock mid).stage ≠ Chain.precondStage op → Chain.authOk s sender mid op →
        errKindOf (Chain.applyOp s sender mid now op) = some ErrKind.state) ∧
    (∀ s8', ChainV8.applyOpV8 s8 sender8 mid8 now8 op = .ok s8' →
        (s8.stock mid8).stage = Chain.precondStage op ∧
        Chain.stageNat ((s8'.stock mid8).stage) =
          Chain.stageNat ((s8.stock mid8).stage) + 1) ∧
    ((s8.stock mid8).stage ≠ Chain.precondStage op →
        isOkE (ChainV8.applyOpV8 s8 sender8 mid8 now8 op) = false) ∧
    ((s8.stock mid8).stage ≠ Chain.precondStage op → ChainV8.roleIdOkV8 s8 sender8 mid8 op →
        errKindOf (ChainV8.applyOpV8 s8 sender8 mid8 now8 op) = some ErrKind.state) :=
  ⟨fun _ h => main_ok_advance h, main_wrong_stage_fails,
   main_wrong_stage_state_error,
   fun _ h => v8_ok_advance h, v8_wrong_stage_fails,
   v8_wrong_stage_state_error⟩

/-- Witness for the C1 theorem: on the concrete fixture, the bound retailer's
receive succeeds and advances stage 4 to 5, and a premature sell from stage 4
by the fully authorized retailer yields the StateError reason on both
contracts. -/
theorem lifecycle_advances_exactly_one_step_witness :
    Chain.stageNat ((wC1AfterRecv.stock 1).stage) =
      Chain.stageNat ((wC1State.stock 1).stage) + 1 ∧
    errKindOf (Chain.applyOp wC1State 30 1 9 .sellOp) = some ErrKind.state ∧
    errKindOf (ChainV8.applyOpV8 wV8State 30 1 9 .sellOp) = some ErrKind.state := by
  have h1 := lifecycle_advances_exactly_one_step wC1State wV8State 30 30 1 1 9 9
    .receiveByRetailerOp
  have h2 := lifecycle_advances_exactly_one_step wC1State wV8State 30 30 1 1 9 9 .sellOp
  refine ⟨(h1.1 wC1AfterRecv rfl).2, ?_, ?_⟩
  · exact h2.2.2.1 (by decide) (by simp only [Chain.authOk]; refine ⟨?_, ?_, ?_⟩ <;> decide)
  · exact h2.2.2.2.2.2 (by decide)
      (by simp only [ChainV8.roleIdOkV8]; refine ⟨?_, ?_⟩ <;> decide)

/-- C1 counterexample: on the main contract a wrong-stage call does not always
revert with the StateError reason — a registered manufacturer who is not the
item's creator calling `packMedicine` on an already-Packed item gets the
authorization revert "Not your product" instead (state is unchanged by the
revert). -/
theorem wrong_stage_call_yields_authorization_error_cex :
    (cexC1State.stock 1).stage ≠ Chain.precondStage .packOp ∧
    Chain.applyOp cexC1State 11 1 5 .packOp =
      .error ⟨.authorization, "Not your product"⟩ ∧
    ErrKind.authorization ≠ ErrKind.state := by
  refine ⟨by decide, ?_, by decide⟩
  rfl

/-- C3 (amended): when the registry owner registers an address, the main
contract rejects with a ConflictError whenever the address already holds any
of the three roles (for each of the three registration functions); the legacy
contract variant only rejects, with a ConflictError, an address that already
holds the same role being requested. -/
theorem role_registration_conflict
    (s : Chain.ChainState) (sender addr now : Nat)
    (s8 : ChainV8.ChainStateV8) (sender8 addr8 : Nat) (nm pl : String)
    (hsend : sender = s.owner) (haddr : addr ≠ 0)
    (hrole : s.manAddressToId addr ≠ 0 ∨ s.disAddressToId addr ≠ 0 ∨
      s.retAddressToId addr ≠ 0)
    (hsend8 : sender8 = s8.owner) :
    errKindOf (Chain.addManufacturer s sender addr now) = some ErrKind.conflict ∧
    errKindOf (Chain.addDistributor s sender addr now) = some ErrKind.conflict ∧
    errKindOf (Chain.addRetailer s sender addr now) = some ErrKind.conflict ∧
    (s8.manAddressToId addr8 ≠ 0 →
        errKindOf (ChainV8.addManufacturerV8 s8 sender8 addr8 nm pl) =
          some ErrKind.conflict) ∧
    (s8.disAddressToId addr8 ≠ 0 →
        errKindOf (ChainV8.addDistributorV8 s8 sender8 addr8 nm pl) =
          some ErrKind.conflict) ∧
    (s8.retAddressToId addr8 ≠ 0 →
        errKindOf (ChainV8.addRetailerV8 s8 sender8 addr8 nm pl) =
          some ErrKind.conflict) := by
  refine ⟨?_, ?_, ?_, ?_, ?_, ?_⟩ <;>
    [skip; skip; skip;
     (intro hm; simp [ChainV8.addManufacturerV8, hsend8, hm, errKindOf]);
     (intro hd; simp [ChainV8.addDistributorV8, hsend8, hd, errKindOf]);
     (intro hr; simp [ChainV8.addRetailerV8, hsend8, hr, errKindOf])] <;>
  (by_cases h1 : s.manAddressToId addr ≠ 0 <;>
   by_cases h2 : s.disAddressToId addr ≠ 0 <;>
   by_cases h3 : s.retAddressToId addr ≠ 0 <;>
   simp_all [Chain.addManufacturer, Chain.addDistributor, Chain.addRetailer,
     hsend, haddr, errKindOf])

/-- Witness for the C3 theorem: on the fixtures, the owner re-registering an
address that already holds a role gets ConflictError from all three main
registrations and from the legacy same-role registration. -/
theorem role_registration_conflict_witness :
    errKindOf (Chain.addManufacturer wC3Main 1 7 3) = some ErrKind.conflict ∧
    errKindOf (Chain.addDistributor wC3Main 1 7 3) = some ErrKind.conflict ∧
    errKindOf (Chain.addRetailer wC3Main 1 7 3) = some ErrKind.conflict ∧
    errKindOf (ChainV8.addManufacturerV8 cexV8Reg 1 5 "M2" "HN") =
      some ErrKind.conflict := by
  have h := role_registration_conflict wC3Main 1 7 3 cexV8Reg 1 5 "M2" "HN"
    rfl (by decide) (Or.inr (Or.inl (by decide))) rfl
  exact ⟨h.1, h.2.1, h.2.2.1, h.2.2.2.1 (by decide)⟩

/-- C3 counterexample: in the legacy contract variant, the owner registering
as Distributor an address that already holds the Manufacturer role succeeds —
the address ends up holding both roles — instead of always returning a
ConflictError. -/
theorem crossrole_registration_accepted_cex :
    cexV8Reg.manAddressToId 5 = 1 ∧
    isOkE (ChainV8.addDistributorV8 cexV8Reg 1 5 "D" "HN") = true ∧
    ((ChainV8.addDistributorV8 cexV8Reg 1 5 "D" "HN").toOption.map
        fun s => (s.manAddressToId 5, s.disAddressToId 5)) = some (1, 1) :=
  ⟨rfl, rfl, rfl⟩

/-- C2 (code bug): linking the same `(internalId, chainId)` pair twice does not
succeed idempotently — the second call hits the unconditional
`findByProductId` conflict check and returns the 409 ConflictError whose own
message claims the chain id is "linked to another product", even though it is
linked to the very same record. -/
theorem link_same_pair_second_call_conflict :
    (ProductApi.linkToChain cexLinkDB "p1" 1 5).2 =
      .ok { cexMeta with productId := 1, updatedAt := 5 } ∧
    (ProductApi.linkToChain (ProductApi.linkToChain cexLinkDB "p1" 1 5).1 "p1" 1 6).2 =
      .error ⟨.conflict, "Chain ID 1 is already linked to another product"⟩ ∧
    ((ProductApi.linkToChain cexLinkDB "p1" 1 5).1).findByProductId 1 =
      some { cexMeta with productId := 1, updatedAt := 5 } :=
  ⟨rfl, rfl, rfl⟩

/-- C5 counterexample: when metadata creation succeeds and the ledger write
throws, `createHybridProduct` returns a plain failure with only an error
message — no metadata id and no "unlinked" status are surfaced to the caller. -/
theorem hybrid_ledger_failure_returns_no_ids_cex :
    createHybridProduct cexHybridEnv =
      ({ success := false, chainId := none, internalId := none,
         error := some "ledger write failed" }, [.apiCreateEff, .ledgerWriteEff]) ∧
    (createHybridProduct cexHybridEnv).1.internalId = none :=
  ⟨rfl, rfl⟩

/-- C5 (amended): `createHybridProduct` returns both ids on full success; on
metadata failure it aborts before any ledger write; on a ledger failure after
metadata succeeded it returns an overall failure carrying only the error
message (no ids — the metadata record merely remains stored unlinked); a
failure of the final link step alone is ignored apart from a warning, the
result still reporting success with both ids (the outcome is independent of
the link call's success flag). -/
theorem createHybridProduct_failure_policy (env : HybridEnv) :
    (∀ msg, env.apiCreate = .error msg →
        createHybridProduct env =
          ({ success := false, chainId := none, internalId := none, error := some msg },
           [.apiCreateEff])) ∧
    (∀ iid msg, env.apiCreate = .ok iid → env.ledgerCall = .error msg →
        createHybridProduct env =
          ({ success := false, chainId := none, internalId := none, error := some msg },
           [.apiCreateEff, .ledgerWriteEff])) ∧
    (∀ iid eventId ctr, env.apiCreate = .ok iid → env.ledgerCall = .ok (eventId, ctr) →
        createHybridProduct env =
          ({ success := true, chainId := some (eventId.getD ctr),
             internalId := some iid, error := none },
           [.apiCreateEff, .ledgerWriteEff, .linkEff])) ∧
    (∀ b, createHybridProduct { env with linkOk := b } = createHybridProduct env) := by
  obtain ⟨ac, lc, lk⟩ := env
  refine ⟨?_, ?_, ?_, ?_⟩ <;> intros <;> simp_all [createHybridProduct]

/-- Witness for the C5 theorem: a metadata failure aborts with no ledger
effect, and a run whose link step fails still reports success with both ids. -/
theorem createHybridProduct_failure_policy_witness :
    createHybridProduct wHybridEnvMetaFail =
      ({ success := false, chainId := none, internalId := none,
         error := some "metadata save failed" }, [.apiCreateEff]) ∧
    createHybridProduct wHybridEnvLinkFail =
      ({ success := true, chainId := some 7, internalId := some "m2", error := none },
       [.apiCreateEff, .ledgerWriteEff, .linkEff]) := by
  constructor
  · exact (createHybridProduct_failure_policy wHybridEnvMetaFail).1
      "metadata save failed" rfl
  · exact (createHybridProduct_failure_policy wHybridEnvLinkFail).2.2.1
      "m2" (some 7) 7 rfl rfl

/-- C8 (code bug): the merged view builds its stage display name from the
stale six-entry legacy table, so stage 0 shows "Init" (not the canonical
"Manufactured") and terminal stage 6 falls off the table to "Unknown" (not
"Sold"), while the contract's own `showStage` returns the canonical names; the
merge itself still succeeds with no metadata present. -/
theorem merged_view_stage_name_stale_bug :
    ((getHybridProduct 1 (some cexOnChain6) none).map fun h => h.stageName) =
      some "Unknown" ∧
    Chain.showStageName .Sold = "Sold" ∧
    ((getHybridProduct 2 (some cexOnChain0) none).map fun h => h.stageName) =
      some "Init" ∧
    Chain.showStageName .Manufactured = "Manufactured" ∧
    ((getHybridProduct 1 (some cexOnChain6) none).map fun h =>
        (h.stage, h.createdAt, h.updatedAt, h.hasMetadata)) =
      some (6, 100, 200, false) :=
  ⟨rfl, rfl, rfl, rfl, rfl⟩

/-- C7: when completeLink fails because the message does not match the
challenge recomputed from the stored nonce, the signature is malformed, or the
recovered address mismatches, it returns a SignatureError and leaves the store
(and hence the identity's nonce, wallets, profile and all other fields)
exactly as before. -/
theorem completeLink_failure_is_pure_signature_error
    (db : UserDB) (recover : Recover) (freshNonce : String) (now : Nat)
    (walletAddress signature message : String) (profile : Option Profile) (u0 : User)
    (hne : walletAddress ≠ "" ∧ signature ≠ "" ∧ message ≠ "")
    (hfind : db.findByWallet (toLowerCase walletAddress) = some u0)
    (hfail : message ≠ createSignMessage u0.nonce "link-wallet" ∨
      recover message signature = none ∨
      ∀ r, recover message signature = some r →
        toLowerCase r ≠ toLowerCase walletAddress) :
    (AuthApi.linkWallet db recover freshNonce now walletAddress signature message
       profile).1 = db ∧
    errKindOf (AuthApi.linkWallet db recover freshNonce now walletAddress signature
       message profile).2 = some ErrKind.signature := by
  obtain ⟨h1, h2, h3⟩ := hne
  by_cases hm : message = createSignMessage u0.nonce "link-wallet"
  · subst hm
    rcases hfail with hf | hf | hf
    · exact absurd rfl hf
    · constructor <;> simp [AuthApi.linkWallet, h1, h2, h3, hfind, hf, errKindOf]
    · cases hr : recover (createSignMessage u0.nonce "link-wallet") signature with
      | none => constructor <;> simp [AuthApi.linkWallet, h1, h2, h3, hfind, hr, errKindOf]
      | some r =>
          have hne' := hf r hr
          constructor <;>
            simp [AuthApi.linkWallet, h1, h2, h3, hfind, hr, hne', errKindOf]
  · constructor <;> simp [AuthApi.linkWallet, h1, h2, h3, hfind, hm, errKindOf]

/-- Witness for the C7 theorem: signing the wrong message leaves the concrete
store untouched and yields the SignatureError kind. -/
theorem completeLink_failure_is_pure_signature_error_witness :
    (AuthApi.linkWallet wAuthDB wRecover "n9" 7 "0xAB" "sig-ab" "wrong message"
       none).1 = wAuthDB ∧
    errKindOf (AuthApi.linkWallet wAuthDB wRecover "n9" 7 "0xAB" "sig-ab"
       "wrong message" none).2 = some ErrKind.signature := by
  exact completeLink_failure_is_pure_signature_error wAuthDB wRecover "n9" 7
    "0xAB" "sig-ab" "wrong message" none wUser0
    ⟨by decide, by decide, by decide⟩ rfl (Or.inl (by decide))

/-- The challenge string determines the nonce it was built from. -/
theorem createSignMessage_nonce_inj {n1 n2 : String}
    (h : createSignMessage n1 "link-wallet" = createSignMessage n2 "link-wallet") :
    n1 = n2 := by
  have hd := congrArg String.data h
  simp only [createSignMessage, String.data_append] at hd
  have hd2 := List.append_cancel_right hd
  have hd3 := List.append_cancel_left hd2
  exact String.ext hd3

/-- A challenge string is never the empty string. -/
theorem createSignMessage_ne_empty (n a : String) : createSignMessage n a ≠ "" := by
  intro h
  have hd := congrArg String.data h
  simp only [createSignMessage, String.data_append] at hd
  obtain ⟨h4, -⟩ := List.append_eq_nil.mp hd
  obtain ⟨h3, -⟩ := List.append_eq_nil.mp h4
  obtain ⟨h2, -⟩ := List.append_eq_nil.mp h3
  obtain ⟨h1, -⟩ := List.append_eq_nil.mp h2
  exact absurd h1 (by decide)

/-- C4: when the caller signs the exact challenge derived from the stored
nonce and the signature recovers to the wallet address, completeLink succeeds,
storing the freshly generated nonce on the identity; replaying the previously
accepted (message, signature) pair against the same address afterwards fails
with the stale-challenge SignatureError (the old message no longer matches the
challenge recomputed from the stored nonce) and mutates nothing. -/
theorem completeLink_rotates_nonce_and_blocks_replay
    (db : UserDB) (recover : Recover) (n1 n2 : String) (now now2 : Nat)
    (walletAddress signature : String) (profile profile2 : Option Profile)
    (u0 : User) (r : String)
    (hwf : ∀ uid u, db.usersById uid = some u → u.id = uid)
    (hne : walletAddress ≠ "" ∧ signature ≠ "")
    (hfind : db.findByWallet (toLowerCase walletAddress) = some u0)
    (hr : recover (createSignMessage u0.nonce "link-wallet") signature = some r)
    (hrlow : toLowerCase r = toLowerCase walletAddress)
    (hfresh : n1 ≠ u0.nonce) :
    AuthApi.linkWallet db recover n1 now walletAddress signature
        (createSignMessage u0.nonce "link-wallet") profile =
      (dbAfterLink db u0 n1 now profile, .ok (linkedUserAfter u0 n1 now profile)) ∧
    (linkedUserAfter u0 n1 now profile).nonce = n1 ∧
    AuthApi.linkWallet (dbAfterLink db u0 n1 now profile) recover n2 now2
        walletAddress signature (createSignMessage u0.nonce "link-wallet") profile2 =
      (dbAfterLink db u0 n1 now profile, .error ⟨.signature,
        "Invalid message. Please request a fresh nonce and try again."⟩) := by
  have hnonempty : ¬(walletAddress = "" ∨ signature = "" ∨
      createSignMessage u0.nonce "link-wallet" = "") := by
    simp [hne.1, hne.2, createSignMessage_ne_empty]
  refine ⟨?_, rfl, ?_⟩
  · simp only [AuthApi.linkWallet, hfind]
    rw [if_neg hnonempty, if_neg (not_not_intro rfl)]
    simp only [hr]
    rw [if_neg (not_not_intro hrlow)]
    simp only [UserDB.update, hfind]
    rfl
  · simp only [UserDB.findByWallet] at hfind
    rcases Option.bind_eq_some.mp hfind with ⟨uid, hidx, hu0⟩
    have hid := hwf uid u0 hu0
    have hfind2 : (dbAfterLink db u0 n1 now profile).findByWallet
        (toLowerCase walletAddress) = some (linkedUserAfter u0 n1 now profile) := by
      simp only [UserDB.findByWallet, dbAfterLink]
      rw [hidx]
      simp [setF, ← hid]
    have hrot : (linkedUserAfter u0 n1 now profile).nonce = n1 := rfl
    have hmsgne : createSignMessage u0.nonce "link-wallet" ≠
        createSignMessage (linkedUserAfter u0 n1 now profile).nonce "link-wallet" := by
      rw [hrot]
      intro heq
      exact hfresh (createSignMessage_nonce_inj heq).symm
    simp only [AuthApi.linkWallet, hfind2]
    rw [if_neg hnonempty, if_pos hmsgne]

/-- Witness for the C4 theorem: on the concrete store, the successful link
rotates the nonce to `nonce1`, and replaying the same message/signature pair
is rejected with the stale-challenge SignatureError without touching the
store. -/
theorem completeLink_rotates_nonce_and_blocks_replay_witness :
    (linkedUserAfter wUser0 "nonce1" 5 none).nonce = "nonce1" ∧
    AuthApi.linkWallet (dbAfterLink wAuthDB wUser0 "nonce1" 5 none) wRecover "n2" 9
        "0xAB" "sig-ab" wLinkMsg none =
      (dbAfterLink wAuthDB wUser0 "nonce1" 5 none, .error ⟨.signature,
        "Invalid message. Please request a fresh nonce and try again."⟩) := by
  have hwf : ∀ uid u, wAuthDB.usersById uid = some u → u.id = uid := by
    intro uid u h
    by_cases hc : uid = "u1"
    · subst hc
      simp [wAuthDB] at h
      subst h
      rfl
    · simp [wAuthDB, hc] at h
  have h := completeLink_rotates_nonce_and_blocks_replay wAuthDB wRecover "nonce1" "n2"
    5 9 "0xAB" "sig-ab" none none wUser0 "0xAB" hwf ⟨by decide, by decide⟩ (by rfl)
    (by rfl) (by rfl) (by decide)
  exact ⟨h.2.1, h.2.2⟩

/-- An indexed store assigns each wallet address to at most one identity. -/
theorem wfIndexed_walletsUnique {db : UserDB} (hwf : wfIndexed db) :
    walletsUnique db := by
  intro uid1 uid2 u1 u2 e1 e2 h1 h2 he1 he2 haddr
  have c1 := hwf.2 uid1 u1 e1 h1 he1
  have c2 := hwf.2 uid2 u2 e2 h2 he2
  rw [haddr] at c1
  rw [c1] at c2
  exact (Option.some.injEq _ _).mp c2

/-- Filtering out elements the predicate never counts keeps the count. -/
theorem countP_filter_of_imp {α : Type} (l : List α) (p q : α → Bool)
    (h : ∀ a ∈ l, p a = true → q a = true) :
    (l.filter q).countP p = l.countP p := by
  induction l with
  | nil => rfl
  | cons a t ih =>
      have ht : ∀ b ∈ t, p b = true → q b = true := fun b hb => h b (List.mem_cons_of_mem a hb)
      by_cases hq : q a = true
      · simp [List.filter_cons, hq, List.countP_cons, ih ht]
      · have hp : p a = false := by
          cases hpa : p a with
          | true => exact absurd (h a (List.mem_cons_self a t) hpa) hq
          | false => rfl
        simp [List.filter_cons, hq, List.countP_cons, hp, ih ht]

/-- In a list of entries with pairwise-distinct addresses, exactly one entry
carries a present address. -/
theorem countP_addr_eq_one (l : List LinkedWalletEntry) (na : String)
    (hnd : (l.map fun w => w.address).Nodup)
    (hmem : ∃ e ∈ l, e.address = na) :
    l.countP (fun w => w.address == na) = 1 := by
  induction l with
  | nil => simp at hmem
  | cons a t ih =>
      simp only [List.map_cons, List.nodup_cons] at hnd
      rcases hmem with ⟨e, he, haddr⟩
      rcases List.mem_cons.mp he with rfl | het
      · have ht0 : t.countP (fun w => w.address == na) = 0 := by
          rw [List.countP_eq_zero]
          intro b hb
          simp only [beq_iff_eq]
          intro hbad
          exact hnd.1 (haddr ▸ hbad ▸ List.mem_map_of_mem (fun w => w.address) hb)
        simp [List.countP_cons, ht0, haddr]
      · have : t.countP (fun w => w.address == na) = 1 :=
          ih hnd.2 ⟨e, het, haddr⟩
        have hane : ¬(a.address == na) = true := by
          simp only [beq_iff_eq]
          intro hbad
          exact hnd.1 (hbad ▸ haddr ▸ List.mem_map_of_mem (fun w => w.address) het)
        simp [List.countP_cons, this, hane]

/-- `UserDatabase.update` preserves the identity-store invariant. -/
theorem update_preserves_identInv {db db' : UserDB} {wa : String} {upd : UserUpd}
    {u' : User} (hinv : identInv db) (h : db.update wa upd = some (db', u')) :
    identInv db' := by
  cases hf : db.findByWallet wa with
  | none => simp [UserDB.update, hf] at h
  | some u1 =>
      simp only [UserDB.update, hf, Option.some.injEq] at h
      injection h with h1 h2
      subst h1
      have hbind := hf
      simp only [UserDB.findByWallet] at hbind
      rcases Option.bind_eq_some.mp hbind with ⟨uid1, hidx1, hu1⟩
      have hid1 : u1.id = uid1 := hinv.1.1 uid1 u1 hu1
      refine ⟨⟨?_, ?_⟩, ?_⟩
      · intro uid u hu
        by_cases hc : uid = u1.id
        · subst hc
          simp only [setF, if_true, eq_self_iff_true, Option.some.injEq] at hu
          rw [← hu]
          rfl
        · simp only [setF, if_neg hc] at hu
          exact hinv.1.1 uid u hu
      · intro uid u e hu he
        by_cases hc : uid = u1.id
        · subst hc
          simp only [setF, if_true, eq_self_iff_true, Option.some.injEq] at hu
          rw [← hu] at he
          have := hinv.1.2 uid1 u1 e hu1 he
          rw [hid1]
          exact this
        · simp only [setF, if_neg hc] at hu
          exact hinv.1.2 uid u e hu he
      · intro uid u hu
        by_cases hc : uid = u1.id
        · subst hc
          simp only [setF, if_true, eq_self_iff_true, Option.some.injEq] at hu
          rw [← hu]
          exact hinv.2 uid1 u1 hu1
        · simp only [setF, if_neg hc] at hu
          exact hinv.2 uid u hu

/-- `Char.ofNat` round-trips on lowercase-letter codepoints. -/
theorem char_ofNat_toNat_lower {n : Nat} (h1 : 97 ≤ n) (h2 : n ≤ 122) :
    (Char.ofNat n).toNat = n := by
  interval_cases n <;> decide

/-- Lowering a character twice is the same as lowering it once. -/
theorem char_toLower_idem (c : Char) : c.toLower.toLower = c.toLower := by
  simp only [Char.toLower]
  by_cases h : c.toNat ≥ 65 ∧ c.toNat ≤ 90
  · rw [if_pos h]
    have hv : (Char.ofNat (c.toNat + 32)).toNat = c.toNat + 32 :=
      char_ofNat_toNat_lower (by omega) (by omega)
    rw [if_neg]
    intro hc
    rw [hv] at hc
    omega
  · rw [if_neg h, if_neg h]

/-- The lowercase normalization is idempotent. -/
theorem toLowerCase_idem (s : String) : toLowerCase (toLowerCase s) = toLowerCase s := by
  apply String.ext
  simp only [toLowerCase, List.map_map]
  exact List.map_congr_left fun c _ => char_toLower_idem c

/-- `UserDatabase.addWalletToUser` preserves the identity-store invariant,
indexes the new wallet to its owner, and appends exactly one entry. -/
theorem addWallet_preserves_identInv {db db' : UserDB} {userId : String}
    {entry : LinkedWalletEntry} {now : Nat} {u' : User}
    (hentry : entry.isPrimary = false) (hinv : identInv db)
    (h : db.addWalletToUser userId entry now = some (db', u')) :
    identInv db' ∧ db'.walletIndex (toLowerCase entry.address) = some userId ∧
    ∀ u0, db.usersById userId = some u0 →
      u'.linkedWallets = u0.linkedWallets ++
        [{ entry with address := toLowerCase entry.address, addedAt := now }] := by
  cases hu0 : db.usersById userId with
  | none => simp [UserDB.addWalletToUser, hu0] at h
  | some u0 =>
      simp only [UserDB.addWalletToUser, hu0] at h
      cases hidx : db.walletIndex (toLowerCase entry.address) with
      | some uid2 => simp [hidx] at h
      | none =>
          rw [hidx] at h
          simp only [Option.isSome_none, Bool.false_eq_true, if_false,
            Option.some.injEq] at h
          injection h with hdb hu
          subst hdb
          have hid0 : u0.id = userId := hinv.1.1 userId u0 hu0
          refine ⟨⟨⟨?_, ?_⟩, ?_⟩, ?_, ?_⟩
          · intro uid u hu2
            by_cases hc : uid = userId
            · rw [hc] at hu2 ⊢
              simp only [setF, if_true, eq_self_iff_true, Option.some.injEq] at hu2
              rw [← hu2]
              exact hid0
            · simp only [setF, if_neg hc] at hu2
              exact hinv.1.1 uid u hu2
          · intro uid u e hu2 he
            by_cases hc : uid = userId
            · rw [hc] at hu2 ⊢
              simp only [setF, if_true, eq_self_iff_true, Option.some.injEq] at hu2
              rw [← hu2] at he
              simp only [List.mem_append, List.mem_singleton] at he
              rcases he with he | he
              · have cov := hinv.1.2 userId u0 e hu0 he
                by_cases he2 : e.address = toLowerCase entry.address
                · simp [setF, he2]
                · simp only [setF, if_neg he2]
                  exact cov
              · subst he
                simp [setF]
            · simp only [setF, if_neg hc] at hu2
              have cov := hinv.1.2 uid u e hu2 he
              by_cases he2 : e.address = toLowerCase entry.address
              · rw [he2, hidx] at cov
                cases cov
              · simp only [setF, if_neg he2]
                exact cov
          · intro uid u hu2
            by_cases hc : uid = userId
            · rw [hc] at hu2
              simp only [setF, if_true, eq_self_iff_true, Option.some.injEq] at hu2
              rw [← hu2]
              obtain ⟨hcnt, haddr, hnd⟩ := hinv.2 userId u0 hu0
              refine ⟨?_, ?_, ?_⟩
              · simp only [List.countP_append, List.countP_cons, List.countP_nil]
                simp [hentry, hcnt]
              · intro e he hp
                simp only [List.mem_append, List.mem_singleton] at he
                rcases he with he | he
                · exact haddr e he hp
                · subst he
                  simp [hentry] at hp
              · simp only [List.map_append, List.map_cons, List.map_nil]
                rw [List.nodup_append]
                refine ⟨hnd, List.nodup_singleton _, ?_⟩
                intro a ha
                simp only [List.mem_singleton]
                intro hbad
                subst hbad
                rcases List.mem_map.mp ha with ⟨e0, he0, haddr0⟩
                have cov := hinv.1.2 userId u0 e0 hu0 he0
                rw [haddr0, hidx] at cov
                cases cov
            · simp only [setF, if_neg hc] at hu2
              exact hinv.2 uid u hu2
          · simp [setF]
          · intro u1 hu1
            injection hu1 with h01
            subst h01
            rw [← hu]

/-- `UserDatabase.setPrimaryWallet` preserves the identity-store invariant,
requires the address to be one of the user's linked wallets, and flips
`isPrimary` to exactly the entries carrying that address. -/
theorem setPrimary_preserves_identInv {db db' : UserDB} {userId wa : String} {u' : User}
    (hinv : identInv db) (h : db.setPrimaryWallet userId wa = some (db', u')) :
    identInv db' ∧ u'.primaryWallet = toLowerCase wa ∧
    (∀ e ∈ u'.linkedWallets, e.isPrimary = (e.address == toLowerCase wa)) ∧
    ∃ u0 e0, db.usersById userId = some u0 ∧ e0 ∈ u0.linkedWallets ∧
      e0.address = toLowerCase wa := by
  cases hu0 : db.usersById userId with
  | none => simp [UserDB.setPrimaryWallet, hu0] at h
  | some u0 =>
      simp only [UserDB.setPrimaryWallet, hu0] at h
      cases hfd : u0.linkedWallets.find? (fun w => w.address == toLowerCase wa) with
      | none => simp [hfd] at h
      | some efound =>
          simp only [hfd, Option.some.injEq] at h
          injection h with hdb hu
          subst hdb
          have hmem := List.mem_of_find?_eq_some hfd
          have haddr0 : efound.address = toLowerCase wa := by
            simpa using List.find?_some hfd
          have hid0 : u0.id = userId := hinv.1.1 userId u0 hu0
          obtain ⟨hcnt, haddr, hnd⟩ := hinv.2 userId u0 hu0
          refine ⟨⟨⟨?_, ?_⟩, ?_⟩, ?_, ?_, ?_⟩
          · intro uid u hu2
            by_cases hc : uid = userId
            · rw [hc] at hu2 ⊢
              simp only [setF, if_true, eq_self_iff_true, Option.some.injEq] at hu2
              rw [← hu2]
              exact hid0
            · simp only [setF, if_neg hc] at hu2
              exact hinv.1.1 uid u hu2
          · intro uid u e hu2 he
            by_cases hc : uid = userId
            · rw [hc] at hu2 ⊢
              simp only [setF, if_true, eq_self_iff_true, Option.some.injEq] at hu2
              rw [← hu2] at he
              rcases List.mem_map.mp he with ⟨e1, he1, hfe⟩
              have cov := hinv.1.2 userId u0 e1 hu0 he1
              rw [← hfe]
              exact cov
            · simp only [setF, if_neg hc] at hu2
              exact hinv.1.2 uid u e hu2 he
          · intro uid u hu2
            by_cases hc : uid = userId
            · rw [hc] at hu2
              simp only [setF, if_true, eq_self_iff_true, Option.some.injEq] at hu2
              rw [← hu2]
              refine ⟨?_, ?_, ?_⟩
              · rw [List.countP_map]
                have : ((fun w => w.isPrimary) ∘ fun w =>
                    { w with isPrimary := w.address == toLowerCase wa }) =
                    fun w : LinkedWalletEntry => w.address == toLowerCase wa := rfl
                rw [this]
                exact countP_addr_eq_one u0.linkedWallets (toLowerCase wa) hnd
                  ⟨efound, hmem, haddr0⟩
              · intro e he hp
                rcases List.mem_map.mp he with ⟨e1, he1, hfe⟩
                rw [← hfe] at hp ⊢
                simpa using hp
              · rw [List.map_map]
                have : ((fun w : LinkedWalletEntry => w.address) ∘ fun w =>
                    { w with isPrimary := w.address == toLowerCase wa }) =
                    fun w : LinkedWalletEntry => w.address := rfl
                rw [this]
                exact hnd
            · simp only [setF, if_neg hc] at hu2
              exact hinv.2 uid u hu2
          · rw [← hu]
          · intro e he
            rw [← hu] at he
            rcases List.mem_map.mp he with ⟨e1, he1, hfe⟩
            rw [← hfe]
          · exact ⟨u0, efound, rfl, hmem, haddr0⟩

/-- The removeLinkedWallet controller preserves the identity-store invariant
(error paths leave the store untouched; the success path filters a
non-primary wallet out and frees its index slot). -/
theorem removeLinkedWallet_preserves_identInv (db : UserDB) (address userId : String)
    (hinv : identInv db) :
    identInv (AuthApi.removeLinkedWallet db address userId).1 := by
  simp only [AuthApi.removeLinkedWallet]
  split
  · exact hinv
  · cases hu0 : db.findById userId with
    | none => simp only [hu0]; exact hinv
    | some u0 =>
        simp only [hu0]
        split
        · exact hinv
        · rename_i hanyneg
          split
          · exact hinv
          · rename_i hprim
            have hu0' : db.usersById userId = some u0 := hu0
            have hany := not_not.mp hanyneg
            rw [List.any_eq_true] at hany
            obtain ⟨e0, he0, haddr0b⟩ := hany
            have haddr0 : e0.address = toLowerCase address := by simpa using haddr0b
            have hid0 : u0.id = userId := hinv.1.1 userId u0 hu0'
            obtain ⟨hcnt, haddr, hnd⟩ := hinv.2 userId u0 hu0'
            simp only [UserDB.removeWalletFromUser, hu0', toLowerCase_idem]
            rw [if_neg hprim]
            dsimp only
            refine ⟨⟨?_, ?_⟩, ?_⟩
            · intro uid u hu2
              by_cases hc : uid = userId
              · rw [hc] at hu2 ⊢
                simp only [setF, if_true, eq_self_iff_true, Option.some.injEq] at hu2
                rw [← hu2]
                exact hid0
              · simp only [setF, if_neg hc] at hu2
                exact hinv.1.1 uid u hu2
            · intro uid u e hu2 he
              by_cases hc : uid = userId
              · rw [hc] at hu2 ⊢
                simp only [setF, if_true, eq_self_iff_true, Option.some.injEq] at hu2
                rw [← hu2] at he
                rw [List.mem_filter] at he
                have haddrne : e.address ≠ toLowerCase address := of_decide_eq_true he.2
                have cov := hinv.1.2 userId u0 e hu0' he.1
                show delF db.walletIndex (toLowerCase address) e.address = some userId
                rw [delF_other db.walletIndex (toLowerCase address) e.address haddrne]
                exact cov
              · simp only [setF, if_neg hc] at hu2
                have cov := hinv.1.2 uid u e hu2 he
                by_cases he2 : e.address = toLowerCase address
                · have cov0 := hinv.1.2 userId u0 e0 hu0' he0
                  rw [haddr0] at cov0
                  rw [he2] at cov
                  rw [cov0] at cov
                  injection cov with cov
                  exact absurd cov.symm hc
                · show delF db.walletIndex (toLowerCase address) e.address = some uid
                  rw [delF_other db.walletIndex (toLowerCase address) e.address he2]
                  exact cov
            · intro uid u hu2
              by_cases hc : uid = userId
              · rw [hc] at hu2
                simp only [setF, if_true, eq_self_iff_true, Option.some.injEq] at hu2
                rw [← hu2]
                refine ⟨?_, ?_, ?_⟩
                · rw [countP_filter_of_imp]
                  · exact hcnt
                  · intro a ha hp
                    have := haddr a ha hp
                    refine decide_eq_true ?_
                    rw [this]
                    exact hprim
                · intro e he hp
                  rw [List.mem_filter] at he
                  exact haddr e he.1 hp
                · exact List.Nodup.sublist
                    (List.Sublist.map _ (List.filter_sublist u0.linkedWallets)) hnd
              · simp only [setF, if_neg hc] at hu2
                exact hinv.2 uid u hu2

/-- The getNonce controller preserves the identity-store invariant: an
existing identity is returned untouched, and a first request creates a
single-wallet identity whose only entry is the primary. -/
theorem getNonce_preserves_identInv (db : UserDB) (wa fid fn : String) (now : Nat)
    (hinv : identInv db) :
    identInv (AuthApi.getNonce db wa fid fn now).1 := by
  simp only [AuthApi.getNonce]
  cases hf : db.findByWallet (toLowerCase wa) with
  | some u => simp only [hf]; exact hinv
  | none =>
      simp only [hf]
      simp only [UserDB.findByWallet, toLowerCase_idem] at hf
      simp only [UserDB.create, toLowerCase_idem, List.any_cons, List.any_nil,
        beq_self_eq_true, Bool.or_false, if_true, List.map_cons, List.map_nil,
        List.foldl_cons, List.foldl_nil]
      refine ⟨⟨?_, ?_⟩, ?_⟩
      · intro uid u hu2
        by_cases hc : uid = fid
        · rw [hc] at hu2 ⊢
          simp only [setF, if_true, eq_self_iff_true, Option.some.injEq] at hu2
          rw [← hu2]
        · simp only [setF, if_neg hc] at hu2
          exact hinv.1.1 uid u hu2
      · intro uid u e hu2 he
        by_cases hc : uid = fid
        · rw [hc] at hu2 ⊢
          simp only [setF, if_true, eq_self_iff_true, Option.some.injEq] at hu2
          rw [← hu2] at he
          simp only [List.mem_singleton] at he
          subst he
          simp [setF]
        · simp only [setF, if_neg hc] at hu2
          have cov := hinv.1.2 uid u e hu2 he
          by_cases he2 : e.address = toLowerCase wa
          · rw [he2] at cov
            simp [cov, hu2] at hf
          · simp only [setF, if_neg he2]
            exact cov
      · intro uid u hu2
        by_cases hc : uid = fid
        · rw [hc] at hu2
          simp only [setF, if_true, eq_self_iff_true, Option.some.injEq] at hu2
          rw [← hu2]
          refine ⟨by simp [List.countP_cons], ?_, by simp⟩
          intro e he hp
          simp only [List.mem_singleton] at he
          subst he
          rfl
        · simp only [setF, if_neg hc] at hu2
          exact hinv.2 uid u hu2

/-- `UserDatabase.update` never touches the wallet index. -/
theorem update_walletIndex_eq {db db' : UserDB} {wa : String} {upd : UserUpd}
    {u' : User} (h : db.update wa upd = some (db', u')) :
    db'.walletIndex = db.walletIndex := by
  cases hf : db.findByWallet wa with
  | none => simp [UserDB.update, hf] at h
  | some u1 =>
      simp only [UserDB.update, hf, Option.some.injEq] at h
      injection h with h1 h2
      rw [← h1]

/-- The linkWallet controller preserves the identity-store invariant. -/
theorem linkWallet_preserves_identInv (db : UserDB) (recover : Recover)
    (freshNonce : String) (now : Nat) (walletAddress signature message : String)
    (profile : Option Profile) (hinv : identInv db) :
    identInv (AuthApi.linkWallet db recover freshNonce now walletAddress signature
      message profile).1 := by
  simp only [AuthApi.linkWallet]
  split
  · exact hinv
  · split
    · exact hinv
    · split
      · exact hinv
      · split
        · exact hinv
        · split
          · exact hinv
          · split
            · exact hinv
            · rename_i db2 u2 hup
              exact update_preserves_identInv hinv hup

/-- The addLinkedWallet controller preserves the identity-store invariant. -/
theorem addLinkedWallet_preserves_identInv (db : UserDB) (recover : Recover)
    (now : Nat) (addressToLink signature userId : String) (hinv : identInv db) :
    identInv (AuthApi.addLinkedWallet db recover now addressToLink signature
      userId).1 := by
  simp only [AuthApi.addLinkedWallet]
  split
  · exact hinv
  · split
    · exact hinv
    · split
      · exact hinv
      · split
        · exact hinv
        · split
          · exact hinv
          · split
            · exact hinv
            · rename_i db1 u1 hadd
              have h1 := (addWallet_preserves_identInv rfl hinv hadd).1
              split
              · exact h1
              · rename_i d2 u3 hup
                exact update_preserves_identInv h1 hup

/-- The setPrimaryWallet controller preserves the identity-store invariant. -/
theorem setPrimaryWallet_ctrl_preserves_identInv (db : UserDB)
    (userId walletAddress : String) (hinv : identInv db) :
    identInv (AuthApi.setPrimaryWallet db userId walletAddress).1 := by
  simp only [AuthApi.setPrimaryWallet]
  split
  · exact hinv
  · split
    · exact hinv
    · rename_i db2 u2 hset
      exact (setPrimary_preserves_identInv hinv hset).1

/-- The verifySignature controller preserves the identity-store invariant. -/
theorem verifySignature_preserves_identInv (db : UserDB) (recover : Recover)
    (freshNonce : String) (now : Nat) (walletAddress signature message : String)
    (hinv : identInv db) :
    identInv (AuthApi.verifySignature db recover freshNonce now walletAddress
      signature message).1 := by
  simp only [AuthApi.verifySignature]
  split
  · exact hinv
  · split
    · exact hinv
    · split
      · exact hinv
      · split
        · exact hinv
        · split
          · exact hinv
          · rename_i d2 u3 hup
            exact update_preserves_identInv hinv hup

/-- The updateUserProfile controller preserves the identity-store invariant. -/
theorem updateUserProfile_preserves_identInv (db : UserDB)
    (walletAddress : String) (profile : Option Profile) (role : Option String)
    (hinv : identInv db) :
    identInv (AuthApi.updateUserProfile db walletAddress profile role).1 := by
  simp only [AuthApi.updateUserProfile]
  split
  · exact hinv
  · split
    · exact hinv
    · rename_i d2 u3 hup
      exact update_preserves_identInv hinv hup

/-- C9: through every public identity operation, each stored identity keeps
exactly one `isPrimary = true` entry whose address equals `primaryWallet`;
moreover `setPrimaryWallet` requires the address to be one of the user's
linked wallets and flips `isPrimary` to true on exactly the entry carrying
that address and to false on all others, and removeWallet rejects removal of
the current primary wallet, mutating nothing. -/
theorem identity_primary_wallet_invariant
    (db : UserDB) (recover : Recover) (op : AuthOp) (hinv : identInv db) :
    identInv (applyAuthOp db recover op) ∧
    (∀ uid u, (applyAuthOp db recover op).usersById uid = some u →
        u.linkedWallets.countP (fun w => w.isPrimary) = 1 ∧
        ∀ e ∈ u.linkedWallets, e.isPrimary = true → e.address = u.primaryWallet) ∧
    (∀ userId wa db' u', db.setPrimaryWallet userId wa = some (db', u') →
        u'.primaryWallet = toLowerCase wa ∧
        (∀ e ∈ u'.linkedWallets, e.isPrimary = (e.address == toLowerCase wa)) ∧
        ∃ u0 e0, db.usersById userId = some u0 ∧ e0 ∈ u0.linkedWallets ∧
          e0.address = toLowerCase wa) ∧
    (∀ a uid0 u0, uid0 ≠ "" → db.findById uid0 = some u0 →
        u0.primaryWallet = toLowerCase a →
        AuthApi.removeLinkedWallet db a uid0 =
          (db, .error ⟨.validation,
            "Cannot remove primary wallet. Set a different wallet as primary first."⟩)) := by
  have hpres : identInv (applyAuthOp db recover op) := by
    cases op with
    | getNonceOp a b c d => exact getNonce_preserves_identInv db a b c d hinv
    | linkWalletOp a b c d e f =>
        exact linkWallet_preserves_identInv db recover a b c d e f hinv
    | addLinkedWalletOp a b c d =>
        exact addLinkedWallet_preserves_identInv db recover a b c d hinv
    | removeLinkedWalletOp a b =>
        exact removeLinkedWallet_preserves_identInv db a b hinv
    | setPrimaryWalletOp a b =>
        exact setPrimaryWallet_ctrl_preserves_identInv db a b hinv
    | verifySignatureOp a b c d e =>
        exact verifySignature_preserves_identInv db recover a b c d e hinv
    | updateUserProfileOp a b c =>
        exact updateUserProfile_preserves_identInv db a b c hinv
  refine ⟨hpres, ?_, ?_, ?_⟩
  · intro uid u hu
    have h := hpres.2 uid u hu
    exact ⟨h.1, h.2.1⟩
  · intro userId wa db' u' hset
    have h := setPrimary_preserves_identInv hinv hset
    exact ⟨h.2.1, h.2.2.1, h.2.2.2⟩
  · intro a uid0 u0 hne0 hfind0 hprima
    simp only [AuthApi.removeLinkedWallet]
    rw [if_neg hne0]
    simp only [hfind0]
    obtain ⟨hcnt, haddrP, -⟩ := hinv.2 uid0 u0 hfind0
    have hpos : 0 < u0.linkedWallets.countP (fun w => w.isPrimary) := by
      rw [hcnt]
      omega
    rcases List.countP_pos_iff.mp hpos with ⟨e, he, hp⟩
    have haddr := haddrP e he hp
    have hanyT : (u0.linkedWallets.any fun w => w.address == toLowerCase a) = true := by
      rw [List.any_eq_true]
      refine ⟨e, he, ?_⟩
      simp [haddr, hprima]
    rw [if_neg (not_not_intro hanyT), if_pos hprima]

/-- Witness for the C9 theorem: the identity created by a first getNonce on
the empty store has exactly one primary entry, carrying its primary wallet. -/
theorem identity_primary_wallet_invariant_witness :
    ((applyAuthOp UserDB.emptyDB wRecover
        (AuthOp.getNonceOp "0xAB" "u9" "n0" 3)).usersById "u9").map
      (fun u => (u.linkedWallets.countP fun w => w.isPrimary, u.primaryWallet)) =
      some (1, "0xab") := by
  have hinv0 : identInv UserDB.emptyDB := by
    refine ⟨⟨?_, ?_⟩, ?_⟩
    · intro uid u h
      exact nomatch h
    · intro uid u e h he
      exact nomatch h
    · intro uid u h
      exact nomatch h
  have h := identity_primary_wallet_invariant UserDB.emptyDB wRecover
    (AuthOp.getNonceOp "0xAB" "u9" "n0" 3) hinv0
  have hst : (applyAuthOp UserDB.emptyDB wRecover
      (AuthOp.getNonceOp "0xAB" "u9" "n0" 3)).usersById "u9" = some wC9User := by rfl
  have h2 := h.2.1 "u9" wC9User hst
  rw [hst]
  simp only [Option.map_some']
  rw [h2.1]
  rfl

/-- C6: addSecondaryWallet rejects with the ConflictError whenever the new
address is already indexed to any account; given a free address it rejects
with a SignatureError unless the signature recovers (case-insensitively) to
the new address itself; and on the success path it appends exactly one
non-primary entry for the lowercased address, records it in the reverse
index under the owner, and preserves the store invariant, hence the
at-most-one-identity-per-wallet property. -/
theorem addSecondaryWallet_spec
    (db : UserDB) (recover : Recover) (now : Nat)
    (addressToLink signature userId : String) (u0 : User)
    (hne : addressToLink ≠ "" ∧ signature ≠ "" ∧ userId ≠ "")
    (hfind : db.findById userId = some u0) :
    (db.isWalletTaken (toLowerCase addressToLink) = true →
        AuthApi.addLinkedWallet db recover now addressToLink signature userId =
          (db, .error ⟨.conflict, "This wallet is already linked to an account"⟩)) ∧
    (db.isWalletTaken (toLowerCase addressToLink) = false →
      (recover ("Link wallet " ++ addressToLink ++ " to ChainGuard account") signature
          = none →
        AuthApi.addLinkedWallet db recover now addressToLink signature userId =
          (db, .error ⟨.signature, "Invalid signature format"⟩)) ∧
      (∀ r, recover ("Link wallet " ++ addressToLink ++ " to ChainGuard account")
            signature = some r → toLowerCase r ≠ toLowerCase addressToLink →
        AuthApi.addLinkedWallet db recover now addressToLink signature userId =
          (db, .error ⟨.signature,
            "Signature verification failed. The signature must come from the wallet being linked."⟩)) ∧
      (∀ r, recover ("Link wallet " ++ addressToLink ++ " to ChainGuard account")
            signature = some r → toLowerCase r = toLowerCase addressToLink →
        isOkE (AuthApi.addLinkedWallet db recover now addressToLink signature
          userId).2 = true ∧
        (AuthApi.addLinkedWallet db recover now addressToLink signature
          userId).1.walletIndex (toLowerCase addressToLink) = some userId ∧
        (∀ u', (AuthApi.addLinkedWallet db recover now addressToLink signature
            userId).2 = .ok u' →
          u'.linkedWallets = u0.linkedWallets ++
            [⟨toLowerCase addressToLink, false, now, some "MetaMask", none⟩]) ∧
        (identInv db →
          identInv (AuthApi.addLinkedWallet db recover now addressToLink signature
            userId).1 ∧
          walletsUnique (AuthApi.addLinkedWallet db recover now addressToLink
            signature userId).1))) := by
  obtain ⟨h1, h2, h3⟩ := hne
  constructor
  · intro htaken
    simp [AuthApi.addLinkedWallet, h1, h2, h3, hfind, htaken]
  · intro htaken
    refine ⟨?_, ?_, ?_⟩
    · intro hrec
      simp [AuthApi.addLinkedWallet, h1, h2, h3, hfind, htaken, hrec]
    · intro r hr hrne
      simp [AuthApi.addLinkedWallet, h1, h2, h3, hfind, htaken, hr, hrne]
    · intro r hr hrlow
      have hfind' : db.usersById userId = some u0 := hfind
      have hidxnone : db.walletIndex (toLowerCase addressToLink) = none := by
        have ht := htaken
        simp only [UserDB.isWalletTaken, toLowerCase_idem] at ht
        exact Option.not_isSome_iff_eq_none.mp (by simp [ht])
      have hadd : db.addWalletToUser userId
          ⟨toLowerCase addressToLink, false, now, some "MetaMask", none⟩ now =
          some ({ usersById := setF db.usersById userId
                    { u0 with linkedWallets := u0.linkedWallets ++
                        [⟨toLowerCase addressToLink, false, now, some "MetaMask", none⟩] }
                  walletIndex := setF db.walletIndex (toLowerCase addressToLink) userId },
                { u0 with linkedWallets := u0.linkedWallets ++
                    [⟨toLowerCase addressToLink, false, now, some "MetaMask", none⟩] }) := by
        simp [UserDB.addWalletToUser, hfind', toLowerCase_idem, hidxnone]
      simp only [AuthApi.addLinkedWallet, hfind, htaken, Bool.false_eq_true,
        if_false, hr, hadd]
      rw [if_neg (by simp [h1, h2, h3]), if_neg (not_not_intro hrlow)]
      split
      · refine ⟨rfl, by simp [setF], fun u' hu' => ?_, fun hinv => ?_⟩
        · injection hu' with hu'
          rw [← hu']
        · have hinv1 := (addWallet_preserves_identInv rfl hinv hadd).1
          exact ⟨hinv1, wfIndexed_walletsUnique hinv1.1⟩
      · rename_i d2 u3 hup
        refine ⟨rfl, ?_, fun u' hu' => ?_, fun hinv => ?_⟩
        · rw [update_walletIndex_eq hup]
          simp [setF]
        · injection hu' with hu'
          rw [← hu']
        · have hinv1 := (addWallet_preserves_identInv rfl hinv hadd).1
          have hinvd2 := update_preserves_identInv hinv1 hup
          exact ⟨hinvd2, wfIndexed_walletsUnique hinvd2.1⟩

/-- Witness for the C6 theorem: adding wallet `0xCD` (signature recovering to
it) to the one-user store succeeds and indexes `0xcd` to `u1`. -/
theorem addSecondaryWallet_spec_witness :
    isOkE (AuthApi.addLinkedWallet wAuthDB wRecover 7 "0xCD" "sig-cd" "u1").2 = true ∧
    (AuthApi.addLinkedWallet wAuthDB wRecover 7 "0xCD" "sig-cd" "u1").1.walletIndex
      "0xcd" = some "u1" := by
  have h := (addSecondaryWallet_spec wAuthDB wRecover 7 "0xCD" "sig-cd" "u1" wUser0
    ⟨by decide, by decide, by decide⟩ rfl).2 (by rfl)
  have h2 := h.2.2 "0xCD" rfl rfl
  exact ⟨h2.1, h2.2.1⟩

/-- C10: the standalone verify endpoint never consults the stored nonce — two
stores that differ only in stored nonce values produce the same accept/reject
outcome (same success flag and same error kind) for any request; and on
success the stored nonce is rotated to the freshly generated value. -/
theorem verify_outcome_independent_of_nonce
    (db1 db2 : UserDB) (recover : Recover) (n1 n2 : String) (now1 now2 : Nat)
    (walletAddress signature message : String)
    (hwf1 : ∀ uid u, db1.usersById uid = some u → u.id = uid)
    (hag : nonceAgnostic db1 db2) :
    isOkE (AuthApi.verifySignature db1 recover n1 now1 walletAddress signature
        message).2 =
      isOkE (AuthApi.verifySignature db2 recover n2 now2 walletAddress signature
        message).2 ∧
    errKindOf (AuthApi.verifySignature db1 recover n1 now1 walletAddress signature
        message).2 =
      errKindOf (AuthApi.verifySignature db2 recover n2 now2 walletAddress signature
        message).2 ∧
    (∀ u, (AuthApi.verifySignature db1 recover n1 now1 walletAddress signature
        message).2 = .ok u →
      ∀ u'', ((AuthApi.verifySignature db1 recover n1 now1 walletAddress signature
          message).1).findByWallet (toLowerCase walletAddress) = some u'' →
        u''.nonce = n1) := by
  obtain ⟨hidx, husers⟩ := hag
  by_cases hempty : walletAddress = "" ∨ signature = "" ∨ message = ""
  · refine ⟨?_, ?_, ?_⟩ <;>
      simp [AuthApi.verifySignature, hempty, isOkE, errKindOf]
  · cases hw : db2.walletIndex (toLowerCase (toLowerCase walletAddress)) with
    | none =>
        have hw1 : db1.walletIndex (toLowerCase (toLowerCase walletAddress)) = none := by
          rw [hidx]
          exact hw
        refine ⟨?_, ?_, ?_⟩ <;>
          simp [AuthApi.verifySignature, hempty, UserDB.findByWallet, hw, hw1,
            isOkE, errKindOf]
    | some uid =>
        have hw1 : db1.walletIndex (toLowerCase (toLowerCase walletAddress)) =
            some uid := by
          rw [hidx]
          exact hw
        have hu12 := husers uid
        cases h1u : db1.usersById uid with
        | none =>
            cases h2u : db2.usersById uid with
            | none =>
                refine ⟨?_, ?_, ?_⟩ <;>
                  simp [AuthApi.verifySignature, hempty, UserDB.findByWallet, hw,
                    hw1, h1u, h2u, isOkE, errKindOf]
            | some u2 =>
                rw [h1u, h2u] at hu12
                simp at hu12
        | some u1 =>
            cases h2u : db2.usersById uid with
            | none =>
                rw [h1u, h2u] at hu12
                simp at hu12
            | some u2 =>
                cases hr : recover message signature with
                | none =>
                    refine ⟨?_, ?_, ?_⟩ <;>
                      simp [AuthApi.verifySignature, hempty, UserDB.findByWallet,
                        hw, hw1, h1u, h2u, hr, isOkE, errKindOf]
                | some r =>
                    by_cases hrc : toLowerCase r = toLowerCase walletAddress
                    · have hid1 : u1.id = uid := hwf1 uid u1 h1u
                      refine ⟨?_, ?_, ?_⟩
                      · simp [AuthApi.verifySignature, hempty, UserDB.findByWallet,
                          UserDB.update, hw, hw1, h1u, h2u, hr, hrc, isOkE]
                      · simp [AuthApi.verifySignature, hempty, UserDB.findByWallet,
                          UserDB.update, hw, hw1, h1u, h2u, hr, hrc, errKindOf]
                      · intro u hok u'' hfind''
                        simp [AuthApi.verifySignature, UserDB.findByWallet,
                          UserDB.update, hempty, hw1, h1u, hr, hrc, setF,
                          hid1] at hfind''
                        rw [← hfind'']
                        rfl
                    · refine ⟨?_, ?_, ?_⟩ <;>
                        simp [AuthApi.verifySignature, hempty, UserDB.findByWallet,
                          hw, hw1, h1u, h2u, hr, hrc, isOkE, errKindOf]

/-- Witness for `verify_outcome_independent_of_nonce`: the fixture store and a
twin differing only in the stored nonce accept the same request, and the
accepting store holds the freshly generated nonce afterwards. -/
theorem verify_outcome_independent_of_nonce_witness :
    isOkE (AuthApi.verifySignature wAuthDB wRecover "nA" 11 "0xAB" "sig-ab"
        "hello").2 =
      isOkE (AuthApi.verifySignature wAuthDBAltNonce wRecover "nB" 12 "0xAB"
        "sig-ab" "hello").2 ∧
    Option.map (fun u => u.nonce)
        (((AuthApi.verifySignature wAuthDB wRecover "nA" 11 "0xAB" "sig-ab"
            "hello").1).findByWallet (toLowerCase "0xAB")) = some "nA" := by
  have hwf : ∀ uid u, wAuthDB.usersById uid = some u → u.id = uid := by
    intro uid u h
    by_cases hc : uid = "u1"
    · subst hc
      simp [wAuthDB] at h
      subst h
      rfl
    · simp [wAuthDB, hc] at h
  have hag : nonceAgnostic wAuthDB wAuthDBAltNonce := by
    constructor
    · rfl
    · intro uid
      by_cases hc : uid = "u1"
      · subst hc
        rfl
      · simp [wAuthDB, wAuthDBAltNonce, hc]
  have h := verify_outcome_independent_of_nonce wAuthDB wAuthDBAltNonce wRecover
    "nA" "nB" 11 12 "0xAB" "sig-ab" "hello" hwf hag
  refine ⟨h.1, ?_⟩
  have h3 := h.2.2 wUser0 rfl
    { wUser0 with nonce := "nA", lastLoginAt := some 11 } rfl
  rw [show (((AuthApi.verifySignature wAuthDB wRecover "nA" 11 "0xAB" "sig-ab"
      "hello").1).findByWallet (toLowerCase "0xAB")) =
      some { wUser0 with nonce := "nA", lastLoginAt := some 11 } from rfl]
  simp [h3]
